import Mathlib

/-!
Verification of the rngsources multi-source quantum randomness aggregator.

This file gives a shallow embedding of the repository's core components
(`iching_unified.py`, `extract_random_bytes.py`, `fetchers.py`,
`assembler.py`, `backward_compat.py`) and proves the frozen specification
claims about them.  Network and file effects are modelled as explicit
oracle parameters; machine integers are `Nat`/`Int` with explicit
truncation where the Python code truncates; fallible Python code
(exceptions) is modelled with `Except`/`Option`.
-/

set_option maxRecDepth 4096

/-! ## iching_unified.py -/

/-- The King Wen sequence lookup table (`KING_WEN_SEQUENCE`). -/
def KING_WEN_SEQUENCE : List Nat :=
  [2, 23, 8, 20, 16, 35, 45, 12,
   15, 52, 39, 53, 62, 56, 31, 33,
   7, 4, 29, 59, 40, 64, 47, 6,
   46, 18, 48, 57, 32, 50, 28, 44,
   24, 27, 3, 42, 51, 21, 17, 25,
   36, 22, 63, 37, 55, 30, 49, 13,
   19, 41, 60, 61, 54, 38, 58, 10,
   11, 26, 5, 9, 34, 14, 43, 1]

/-- `cast_yarrow_line`: cast a single I Ching line from a byte value.
The Python code compares `(random_value % 256)/256.0` against the exact
dyadic rationals 1/16, 6/16, 13/16; since `v/256.0` is exact in binary
floating point for `0 ≤ v < 256`, the comparisons are equivalent to the
integer comparisons against 16, 96 and 208 used here. -/
def cast_yarrow_line (randomValue : Nat) : Nat :=
  if randomValue % 256 < 16 then 6
  else if randomValue % 256 < 96 then 7
  else if randomValue % 256 < 208 then 8
  else 9

/-- Loop body of `lines_to_binary`: `binary |= (1 << i)` for Yang lines. -/
def linesToBinaryAux : List Nat → Nat → Nat → Nat
  | [], acc, _ => acc
  | l :: rest, acc, i =>
      linesToBinaryAux rest (if l = 7 ∨ l = 9 then acc ||| (1 <<< i) else acc) (i + 1)

/-- `lines_to_binary`: six lines (bottom to top) to the 6-bit Yang/Yin pattern. -/
def lines_to_binary (lines : List Nat) : Nat :=
  linesToBinaryAux lines 0 0

/-- Little-endian list of binary digit characters of `n` (empty for 0). -/
def natBinRev : Nat → List Char
  | 0 => []
  | n + 1 => (if (n + 1) % 2 = 1 then '1' else '0') :: natBinRev ((n + 1) / 2)
decreasing_by exact Nat.div_lt_self (Nat.succ_pos n) (by omega)

/-- `binary_to_string`: `format(binary, '06b')` — binary digits of `n`,
zero-padded on the left to at least six characters. -/
def binary_to_string (n : Nat) : String :=
  let ds := (natBinRev n).reverse
  ⟨List.replicate (6 - ds.length) '0' ++ ds⟩

/-- `lines_to_hexagram_number`: King Wen lookup of the 6-bit pattern.
(The Python list indexing is in range whenever `lines` has six entries;
out-of-range indices default to 0 here and never occur in use.) -/
def lines_to_hexagram_number (lines : List Nat) : Nat :=
  KING_WEN_SEQUENCE.getD (lines_to_binary lines) 0

/-- `transform_changing_lines`: 6 → 7 and 9 → 8, stable lines unchanged. -/
def transform_changing_lines (lines : List Nat) : List Nat :=
  lines.map (fun line => if line = 6 then 7 else if line = 9 then 8 else line)

/-- `IChingDerived` pydantic model (`models.py`). -/
structure IChingDerived where
  technique : String
  derived_from : String
  lines : List Nat
  original_hexagram : Nat
  original_hexagram_bin : String
  original_hexagram_bin2dec : Nat
  resulting_hexagram : Nat
  resulting_hexagram_bin : String
  resulting_hexagram_bin2dec : Nat
  has_changing_lines : Bool
  changing_line_positions : List Int
  deriving Repr, DecidableEq

/-- `cast_iching_hexagram`: cast a complete hexagram from at least six
bytes; the Python `ValueError` on short input is the `.error` branch. -/
def cast_iching_hexagram (randomBytes : List Nat) (sourceRef : String) :
    Except String IChingDerived :=
  if randomBytes.length < 6 then
    .error ("Need at least 6 bytes of random data to cast hexagram")
  else
    let lines := (List.range 6).map (fun i => cast_yarrow_line (randomBytes.getD i 0))
    let originalBinary := lines_to_binary lines
    let transformedLines := transform_changing_lines lines
    let resultingBinary := lines_to_binary transformedLines
    .ok
      { technique := "yarrow_stick"
        derived_from := sourceRef
        lines := lines
        original_hexagram := lines_to_hexagram_number lines
        original_hexagram_bin := binary_to_string originalBinary
        original_hexagram_bin2dec := originalBinary
        resulting_hexagram := lines_to_hexagram_number transformedLines
        resulting_hexagram_bin := binary_to_string resultingBinary
        resulting_hexagram_bin2dec := resultingBinary
        has_changing_lines := lines.any (fun line => line = 6 || line = 9)
        changing_line_positions :=
          (lines.enum.filter (fun p => p.2 = 6 || p.2 = 9)).map (fun p => (p.1 : Int) + 1) }

/-! ### Helper lemmas for the hexagram caster -/

theorem cast_yarrow_line_mem (v : Nat) : cast_yarrow_line v ∈ [6, 7, 8, 9] := by
  unfold cast_yarrow_line
  split_ifs <;> decide

theorem cast_yarrow_line_ne_69 (v : Nat) (h6 : cast_yarrow_line v ≠ 6)
    (h9 : cast_yarrow_line v ≠ 9) : cast_yarrow_line v = 7 ∨ cast_yarrow_line v = 8 := by
  have := cast_yarrow_line_mem v
  simp at this
  rcases this with h | h | h | h <;> simp_all

/-- `a ||| 2^i = a + 2^i` when `a < 2^i`. -/
theorem lor_two_pow_eq_add (i : Nat) : ∀ a, a < 2 ^ i → a ||| 2 ^ i = a + 2 ^ i := by
  induction i with
  | zero => intro a ha; interval_cases a; decide
  | succ k ih =>
      intro a ha
      have hpow : (2 : Nat) ^ (k + 1) = 2 * 2 ^ k := by ring
      have hdiv : Nat.div2 a < 2 ^ k := by
        rw [Nat.div2_val, Nat.div_lt_iff_lt_mul (by norm_num)]
        omega
      have hpow2 : (2 : Nat) ^ (k + 1) = Nat.bit false (2 ^ k) := by
        rw [Nat.bit_val]; simp; omega
      have hdecomp : 2 * Nat.div2 a + (Nat.bodd a).toNat = a := by
        rw [← Nat.bit_val, Nat.bit_decomp]
      calc a ||| 2 ^ (k + 1)
          = Nat.bit (Nat.bodd a) (Nat.div2 a) ||| Nat.bit false (2 ^ k) := by
            rw [Nat.bit_decomp, ← hpow2]
        _ = Nat.bit (Nat.bodd a || false) (Nat.div2 a ||| 2 ^ k) :=
            Nat.lor_bit _ _ _ _
        _ = Nat.bit (Nat.bodd a) (Nat.div2 a + 2 ^ k) := by
            rw [Bool.or_false, ih _ hdiv]
        _ = a + 2 ^ (k + 1) := by
            rw [Nat.bit_val]; omega

/-- Clean recursion computing the same value as the `|=`/`<<` loop. -/
def linesPattern : List Nat → Nat
  | [] => 0
  | l :: rest => (if l = 7 ∨ l = 9 then 1 else 0) + 2 * linesPattern rest

theorem linesPattern_lt : ∀ lines : List Nat, linesPattern lines < 2 ^ lines.length := by
  intro lines
  induction lines with
  | nil => simp [linesPattern]
  | cons l rest ih =>
      simp only [linesPattern, List.length_cons, pow_succ]
      split <;> omega

theorem linesToBinaryAux_eq :
    ∀ (lines : List Nat) (acc i : Nat), acc < 2 ^ i →
      linesToBinaryAux lines acc i = acc + linesPattern lines * 2 ^ i := by
  intro lines
  induction lines with
  | nil => intro acc i _; simp [linesToBinaryAux, linesPattern]
  | cons l rest ih =>
      intro acc i hacc
      simp only [linesToBinaryAux, linesPattern]
      have hpow : (2 : Nat) ^ (i + 1) = 2 * 2 ^ i := by ring
      by_cases hl : l = 7 ∨ l = 9
      · simp only [if_pos hl]
        have hsh : (1 : Nat) <<< i = 2 ^ i := by
          simp [Nat.shiftLeft_eq]
        rw [hsh, lor_two_pow_eq_add i acc hacc]
        rw [ih (acc + 2 ^ i) (i + 1) (by omega)]
        ring
      · simp only [if_neg hl]
        rw [ih acc (i + 1) (by omega)]
        ring

theorem lines_to_binary_eq_pattern (lines : List Nat) :
    lines_to_binary lines = linesPattern lines := by
  unfold lines_to_binary
  rw [linesToBinaryAux_eq lines 0 0 (by norm_num)]
  simp

theorem lines_to_binary_lt (lines : List Nat) :
    lines_to_binary lines < 2 ^ lines.length := by
  rw [lines_to_binary_eq_pattern]; exact linesPattern_lt lines

/-- The clean recursion agrees with the positional sum of powers of two
(bit `i` set exactly when line `i`, counted from the bottom, is Yang). -/
theorem linesPattern_eq_sum (lines : List Nat) :
    linesPattern lines =
      ∑ i ∈ Finset.range lines.length,
        (if lines.getD i 0 = 7 ∨ lines.getD i 0 = 9 then 2 ^ i else 0) := by
  induction lines with
  | nil => simp [linesPattern]
  | cons l rest ih =>
      simp only [linesPattern, List.length_cons]
      rw [Finset.sum_range_succ']
      simp only [List.getD_cons_succ, List.getD_cons_zero, pow_zero]
      rw [ih, Finset.mul_sum, add_comm]
      congr 1
      apply Finset.sum_congr rfl
      intro i _
      split
      · ring
      · ring

/-- Transforming leaves a list without changing lines unchanged. -/
theorem transform_changing_lines_id (lines : List Nat)
    (h : ∀ l ∈ lines, l ≠ 6 ∧ l ≠ 9) : transform_changing_lines lines = lines := by
  unfold transform_changing_lines
  induction lines with
  | nil => rfl
  | cons a rest ih =>
      have ha := h a (by simp)
      simp only [List.map_cons, List.cons.injEq]
      constructor
      · simp [ha.1, ha.2]
      · exact ih (fun l hl => h l (by simp [hl]))

/-! ### Claim C3 -/

/-- C3: for every byte value `v` in `[0,255]`, `cast_yarrow_line v` is in
`{6,7,8,9}`, with `6 ↔ v < 16`, `7 ↔ 16 ≤ v < 96`, `8 ↔ 96 ≤ v < 208`,
`9 ↔ 208 ≤ v`, and over the full 256-value domain the counts of results
6, 7, 8, 9 are exactly 16, 80, 112 and 48. -/
theorem cast_yarrow_line_spec (v : Nat) (hv : v < 256) :
    (cast_yarrow_line v ∈ [6, 7, 8, 9] ∧
      (cast_yarrow_line v = 6 ↔ v < 16) ∧
      (cast_yarrow_line v = 7 ↔ 16 ≤ v ∧ v < 96) ∧
      (cast_yarrow_line v = 8 ↔ 96 ≤ v ∧ v < 208) ∧
      (cast_yarrow_line v = 9 ↔ 208 ≤ v)) ∧
    ((List.range 256).countP (fun u => cast_yarrow_line u == 6) = 16 ∧
      (List.range 256).countP (fun u => cast_yarrow_line u == 7) = 80 ∧
      (List.range 256).countP (fun u => cast_yarrow_line u == 8) = 112 ∧
      (List.range 256).countP (fun u => cast_yarrow_line u == 9) = 48) := by
  constructor
  · have hmod : v % 256 = v := Nat.mod_eq_of_lt hv
    unfold cast_yarrow_line
    rw [hmod]
    split_ifs with h1 h2 h3 <;> refine ⟨by decide, ?_, ?_, ?_, ?_⟩ <;>
      constructor <;> omega
  · refine ⟨?_, ?_, ?_, ?_⟩ <;> decide

/-- Witness for C3 at the concrete input `v = 200`. -/
theorem cast_yarrow_line_spec_witness :
    (200 < 256) ∧ cast_yarrow_line 200 = 8 :=
  ⟨by decide, ((cast_yarrow_line_spec 200 (by decide)).1.2.2.2.1).2 (by decide)⟩

/-! ### Claim C4 -/

/-- C4: for every input of at least six bytes, `cast_iching_hexagram`
succeeds, its `has_changing_lines` flag equals "some cast line is 6 or 9",
and whenever the flag is false the original and resulting hexagram
numbers, binary strings, and binary integer values coincide. -/
theorem cast_iching_hexagram_changing_lines (randomBytes : List Nat) (sourceRef : String)
    (h : 6 ≤ randomBytes.length) :
    ∃ d, cast_iching_hexagram randomBytes sourceRef = .ok d ∧
      (d.has_changing_lines = true ↔ ∃ l ∈ d.lines, l = 6 ∨ l = 9) ∧
      (d.has_changing_lines = false →
        d.original_hexagram = d.resulting_hexagram ∧
        d.original_hexagram_bin = d.resulting_hexagram_bin ∧
        d.original_hexagram_bin2dec = d.resulting_hexagram_bin2dec) := by
  unfold cast_iching_hexagram
  rw [if_neg (by omega)]
  refine ⟨_, rfl, ?_, ?_⟩
  · simp [List.any_eq_true]
  · intro hfalse
    have hid : transform_changing_lines
        ((List.range 6).map (fun i => cast_yarrow_line (randomBytes.getD i 0))) =
        (List.range 6).map (fun i => cast_yarrow_line (randomBytes.getD i 0)) := by
      apply transform_changing_lines_id
      intro l hl
      have hl2 := List.any_eq_false.mp hfalse l hl
      constructor <;> intro h <;> subst h <;> simp at hl2
    refine ⟨?_, ?_, ?_⟩ <;> rw [hid]

/-- Witness for C4 at a concrete six-byte input. -/
theorem cast_iching_hexagram_changing_lines_witness :
    6 ≤ ([10, 20, 100, 210, 0, 255] : List Nat).length ∧
      ∃ d, cast_iching_hexagram [10, 20, 100, 210, 0, 255] "w" = .ok d ∧
        (d.has_changing_lines = true ↔ ∃ l ∈ d.lines, l = 6 ∨ l = 9) ∧
        (d.has_changing_lines = false →
          d.original_hexagram = d.resulting_hexagram ∧
          d.original_hexagram_bin = d.resulting_hexagram_bin ∧
          d.original_hexagram_bin2dec = d.resulting_hexagram_bin2dec) :=
  ⟨by decide, cast_iching_hexagram_changing_lines [10, 20, 100, 210, 0, 255] "w" (by decide)⟩

/-! ### Claim C5 -/

/-- C5: `KING_WEN_SEQUENCE` has exactly 64 pairwise-distinct entries, each
in `[1,64]`, and `lines_to_hexagram_number` is the pure function indexing
the table by the 6-bit pattern whose bit `i` is set exactly when line `i`
(bit 0 = bottom line) is Yang (7 or 9). -/
theorem king_wen_lookup_spec :
    KING_WEN_SEQUENCE.length = 64 ∧
    KING_WEN_SEQUENCE.Nodup ∧
    (∀ x ∈ KING_WEN_SEQUENCE, 1 ≤ x ∧ x ≤ 64) ∧
    (∀ lines : List Nat,
      lines_to_hexagram_number lines =
        KING_WEN_SEQUENCE.getD
          (∑ i ∈ Finset.range lines.length,
            (if lines.getD i 0 = 7 ∨ lines.getD i 0 = 9 then 2 ^ i else 0)) 0) := by
  refine ⟨by decide, by decide, by decide, ?_⟩
  intro lines
  unfold lines_to_hexagram_number
  rw [lines_to_binary_eq_pattern, linesPattern_eq_sum]

/-! ## extract_random_bytes.py — bit-symbol extractor -/

/-- `extract_12_symbols_from_words`: interpret the buffer as 4-byte words
(a trailing partial word is ignored) and keep, in order, each of the first
two bytes of every word whose value is exactly 1 or 2. -/
def extract_12_symbols_from_words : List Nat → List Nat
  | b0 :: b1 :: _ :: _ :: rest =>
      ((if b0 = 1 ∨ b0 = 2 then [b0] else []) ++
        (if b1 = 1 ∨ b1 = 2 then [b1] else [])) ++
        extract_12_symbols_from_words rest
  | _ => []

/-- Loop state of `pack_bits_from_12`: accumulator and bit count. -/
def packBitsAux : List Nat → Nat → Nat → List Nat
  | [], _, _ => []
  | b :: rest, acc, nbits =>
      let bit := if b = 1 then 0 else 1
      let acc2 := (acc <<< 1) ||| bit
      if nbits + 1 = 8 then acc2 :: packBitsAux rest 0 0
      else packBitsAux rest acc2 (nbits + 1)

/-- `pack_bits_from_12`: map symbol 1 to bit 0 and symbol 2 to bit 1 and
pack 8 bits per byte, most significant bit first; a trailing group of
fewer than 8 bits is dropped. -/
def pack_bits_from_12 (sym12 : List Nat) : List Nat :=
  packBitsAux sym12 0 0

/-- The zero-symbol guard of `main` in `extract_random_bytes.py`: after
extraction, an empty symbol stream aborts the pipeline (`sys.exit(1)`)
before any packed or extracted output is produced; otherwise the packed
stream is produced (the SHA3 block-extractor stage runs downstream of it).
-/
def extractPipeline (buf : List Nat) : Except String (List Nat) :=
  let sym12 := extract_12_symbols_from_words buf
  if sym12.isEmpty then
    .error ("No \x7b1,2\x7d symbols found. Are you sure this is the expected format?")
  else
    .ok (pack_bits_from_12 sym12)

/-- "No byte equal to 1 or 2 occurs in the first two positions of any
complete 4-byte word" (word `i` is complete when `i < buf.length / 4`). -/
def NoSymbolBytes (buf : List Nat) : Prop :=
  ∀ i < buf.length / 4,
    buf.getD (4 * i) 0 ≠ 1 ∧ buf.getD (4 * i) 0 ≠ 2 ∧
    buf.getD (4 * i + 1) 0 ≠ 1 ∧ buf.getD (4 * i + 1) 0 ≠ 2

instance noSymbolBytesDecidable (buf : List Nat) : Decidable (NoSymbolBytes buf) := by
  unfold NoSymbolBytes
  exact Nat.decidableBallLT _ _

/-! ### Lemmas for the extractor -/

theorem extract_cons4 (b0 b1 b2 b3 : Nat) (rest : List Nat) :
    extract_12_symbols_from_words (b0 :: b1 :: b2 :: b3 :: rest) =
      ((if b0 = 1 ∨ b0 = 2 then [b0] else []) ++
        (if b1 = 1 ∨ b1 = 2 then [b1] else [])) ++
        extract_12_symbols_from_words rest := by
  rfl

theorem extract_word1200 (rest : List Nat) :
    extract_12_symbols_from_words (1 :: 2 :: 0 :: 0 :: rest) =
      1 :: 2 :: extract_12_symbols_from_words rest := by
  rfl

theorem extract_replicate_word (N : Nat) :
    extract_12_symbols_from_words ((List.replicate N [1, 2, 0, 0]).flatten) =
      (List.replicate N ([1, 2] : List Nat)).flatten := by
  induction N with
  | zero => rfl
  | succ n ih =>
      rw [List.replicate_succ, List.flatten_cons, List.replicate_succ, List.flatten_cons]
      show extract_12_symbols_from_words (1 :: 2 :: 0 :: 0 :: (List.replicate n [1, 2, 0, 0]).flatten) = _
      rw [extract_word1200, ih]
      rfl

theorem packBitsAux_group (rest : List Nat) :
    packBitsAux (1 :: 2 :: 1 :: 2 :: 1 :: 2 :: 1 :: 2 :: rest) 0 0 =
      85 :: packBitsAux rest 0 0 := by
  rfl

theorem pack_alt_group : ∀ (q r : Nat), r < 4 →
    packBitsAux ((List.replicate (4 * q + r) ([1, 2] : List Nat)).flatten) 0 0 =
      List.replicate q 85 := by
  intro q
  induction q with
  | zero =>
      intro r hr
      interval_cases r <;> rfl
  | succ n ih =>
      intro r hr
      have harith : 4 * (n + 1) + r = 4 + (4 * n + r) := by ring
      rw [harith, List.replicate_add, List.flatten_append]
      show packBitsAux (1 :: 2 :: 1 :: 2 :: 1 :: 2 :: 1 :: 2 ::
        (List.replicate (4 * n + r) ([1, 2] : List Nat)).flatten) 0 0 = _
      rw [packBitsAux_group, ih r hr]
      rfl

theorem join_replicate_length (N k : Nat) (w : List Nat) (hw : w.length = k) :
    ((List.replicate N w).flatten).length = k * N := by
  induction N with
  | zero => simp
  | succ n ih =>
      rw [List.replicate_succ, List.flatten_cons, List.length_append, ih, hw]
      ring

/-! ### Claim C6 -/

/-- C6: on a buffer consisting of the 4-byte word `[1,2,0,0]` repeated `N`
times (`N ≥ 1`), extraction yields a symbol stream of length exactly `2N`
(the alternating stream 1,2,1,2,…), and packing maps symbol 1 to bit 0 and
symbol 2 to bit 1, 8 bits per output byte MSB-first — each complete group
of 8 symbols `1,2,…,1,2` becomes the byte `0b01010101 = 85` — producing
exactly `⌊2N/8⌋` bytes with any trailing partial group dropped. -/
theorem extract_pack_repeated_word (N : Nat) (hN : 1 ≤ N) :
    extract_12_symbols_from_words ((List.replicate N ([1, 2, 0, 0] : List Nat)).flatten) =
      (List.replicate N ([1, 2] : List Nat)).flatten ∧
    (extract_12_symbols_from_words
        ((List.replicate N ([1, 2, 0, 0] : List Nat)).flatten)).length = 2 * N ∧
    pack_bits_from_12 (extract_12_symbols_from_words
        ((List.replicate N ([1, 2, 0, 0] : List Nat)).flatten)) =
      List.replicate (2 * N / 8) 85 ∧
    (pack_bits_from_12 (extract_12_symbols_from_words
        ((List.replicate N ([1, 2, 0, 0] : List Nat)).flatten))).length = 2 * N / 8 := by
  have hx := extract_replicate_word N
  have hlen : ((List.replicate N ([1, 2] : List Nat)).flatten).length = 2 * N :=
    join_replicate_length N 2 [1, 2] rfl
  have hpack : pack_bits_from_12 ((List.replicate N ([1, 2] : List Nat)).flatten) =
      List.replicate (2 * N / 8) 85 := by
    unfold pack_bits_from_12
    have hsplit : N = 4 * (N / 4) + N % 4 := (Nat.div_add_mod N 4).symm
    rw [hsplit, pack_alt_group (N / 4) (N % 4) (Nat.mod_lt N (by omega))]
    congr 1
    omega
  refine ⟨hx, by rw [hx, hlen], by rw [hx, hpack], by rw [hx, hpack, List.length_replicate]⟩

/-- Witness for C6 at `N = 5` (10 symbols, one packed byte, 2 dropped). -/
theorem extract_pack_repeated_word_witness :
    1 ≤ 5 ∧
      pack_bits_from_12 (extract_12_symbols_from_words
        ((List.replicate 5 ([1, 2, 0, 0] : List Nat)).flatten)) =
        List.replicate (2 * 5 / 8) 85 :=
  ⟨by decide, (extract_pack_repeated_word 5 (by decide)).2.2.1⟩

/-! ### Claim C7 -/

theorem getD_cons4 (b0 b1 b2 b3 : Nat) (l : List Nat) (n : Nat) :
    (b0 :: b1 :: b2 :: b3 :: l).getD (n + 4) 0 = l.getD n 0 := by
  rw [show n + 4 = n + 1 + 1 + 1 + 1 by ring]
  simp only [List.getD_cons_succ]

theorem extract_nil_of_noSym_bounded :
    ∀ (n : Nat) (buf : List Nat), buf.length ≤ n → NoSymbolBytes buf →
      extract_12_symbols_from_words buf = [] := by
  intro n
  induction n with
  | zero =>
      intro buf hlen _
      have : buf = [] := List.eq_nil_of_length_eq_zero (by omega)
      subst this
      rfl
  | succ m ih =>
      intro buf hlen h
      rcases buf with _ | ⟨b0, _ | ⟨b1, _ | ⟨b2, _ | ⟨b3, rest⟩⟩⟩⟩
      · rfl
      · rfl
      · rfl
      · rfl
      · have h0 := h 0 (by simp only [List.length_cons]; omega)
        simp only [List.getD_cons_zero, List.getD_cons_succ, Nat.mul_zero] at h0
        have hrest : NoSymbolBytes rest := by
          intro i hi
          have hcomplete : i + 1 < (b0 :: b1 :: b2 :: b3 :: rest).length / 4 := by
            simp only [List.length_cons] at *
            omega
          have hv := h (i + 1) hcomplete
          rw [show 4 * (i + 1) = 4 * i + 4 by ring,
            show 4 * i + 4 + 1 = (4 * i + 1) + 4 by ring,
            getD_cons4, getD_cons4] at hv
          exact hv
        have hlenr : rest.length ≤ m := by
          simp only [List.length_cons] at hlen
          omega
        rw [extract_cons4, if_neg (by tauto), if_neg (by tauto), ih rest hlenr hrest]
        rfl

theorem extract_eq_nil_of_noSymbolBytes (buf : List Nat) (h : NoSymbolBytes buf) :
    extract_12_symbols_from_words buf = [] :=
  extract_nil_of_noSym_bounded buf.length buf (Nat.le_refl _) h

/-- C7: for every input buffer in which no byte equal to 1 or 2 occurs in
the first two positions of any complete 4-byte word, the extracted symbol
stream is empty and the pipeline terminates with the fatal zero-symbols
error instead of producing packed output. -/
theorem extract_zero_symbols_fatal (buf : List Nat) (h : NoSymbolBytes buf) :
    extract_12_symbols_from_words buf = [] ∧
    extractPipeline buf =
      .error ("No \x7b1,2\x7d symbols found. Are you sure this is the expected format?") := by
  have hnil := extract_eq_nil_of_noSymbolBytes buf h
  refine ⟨hnil, ?_⟩
  unfold extractPipeline
  rw [hnil]
  rfl

/-- Witness for C7 on the all-zero 8-byte buffer. -/
theorem extract_zero_symbols_fatal_witness :
    NoSymbolBytes (List.replicate 8 0) ∧
      extract_12_symbols_from_words (List.replicate 8 0) = [] :=
  ⟨by decide, (extract_zero_symbols_fatal (List.replicate 8 0) (by decide)).1⟩

/-! ## Bit/byte codec: hex, base64, big-endian integers, SHA-256

These model `bytes.hex()`/`bytes.fromhex`, `base64.b64encode`,
`int.to_bytes(..., 'big')`/`int.from_bytes(..., 'big')` and
`hashlib.sha256(...).hexdigest()` as used by the fetchers, the assembler
and the legacy translator. -/

/-- Lowercase hexadecimal digit characters. -/
def hexDigitChar (n : Nat) : Char :=
  "0123456789abcdef".toList.getD n '0'

/-- Two lowercase hex characters of one byte (`"%02x"`). -/
def byteToHexChars (b : Nat) : List Char :=
  [hexDigitChar (b / 16 % 16), hexDigitChar (b % 16)]

/-- `bytes.hex()`: lowercase hex string of a byte list. -/
def bytesToHex (bs : List Nat) : String :=
  ⟨(bs.map byteToHexChars).flatten⟩

/-- Value of one hex character (`bytes.fromhex` accepts both cases). -/
def hexDigitVal (c : Char) : Option Nat :=
  if '0' ≤ c ∧ c ≤ '9' then some (c.toNat - 48)
  else if 'a' ≤ c ∧ c ≤ 'f' then some (c.toNat - 87)
  else if 'A' ≤ c ∧ c ≤ 'F' then some (c.toNat - 55)
  else none

/-- `bytes.fromhex` on a character list: pairs of hex digits to bytes;
an odd-length or non-hex input fails. -/
def hexDecodeChars : List Char → Option (List Nat)
  | [] => some []
  | c1 :: c2 :: rest => do
      let hi ← hexDigitVal c1
      let lo ← hexDigitVal c2
      let tail ← hexDecodeChars rest
      pure ((16 * hi + lo) :: tail)
  | [_] => none

/-- `bytes.fromhex` on a string. -/
def hexDecode (s : String) : Option (List Nat) :=
  hexDecodeChars s.toList

/-- The base64 alphabet. -/
def b64Char (n : Nat) : Char :=
  "ABCDEFGHIJKLMNOPQRSTUVWXYZabcdefghijklmnopqrstuvwxyz0123456789+/".toList.getD n 'A'

/-- `base64.b64encode` with standard `=` padding, on a byte list. -/
def base64EncodeChars : List Nat → List Char
  | b1 :: b2 :: b3 :: rest =>
      b64Char (b1 / 4 % 64) :: b64Char ((b1 % 4) * 16 + b2 / 16) ::
        b64Char ((b2 % 16) * 4 + b3 / 64) :: b64Char (b3 % 64) ::
        base64EncodeChars rest
  | [b1, b2] =>
      [b64Char (b1 / 4 % 64), b64Char ((b1 % 4) * 16 + b2 / 16),
        b64Char ((b2 % 16) * 4), '=']
  | [b1] =>
      [b64Char (b1 / 4 % 64), b64Char ((b1 % 4) * 16), '=', '=']
  | [] => []

/-- `base64.b64encode(...).decode()`. -/
def base64Encode (bs : List Nat) : String :=
  ⟨base64EncodeChars bs⟩

/-- `v.to_bytes(2, 'big')` for `0 ≤ v < 2^16`. -/
def toBytesBE2 (v : Nat) : List Nat :=
  [v / 256 % 256, v % 256]

/-- `v.to_bytes(4, 'big')` for `0 ≤ v < 2^32`. -/
def toBytesBE4 (v : Nat) : List Nat :=
  [v / 16777216 % 256, v / 65536 % 256, v / 256 % 256, v % 256]

/-- `n.to_bytes(8, 'big')` (used for the SHA-256 length field). -/
def toBytesBE8 (v : Nat) : List Nat :=
  [v / 72057594037927936 % 256, v / 281474976710656 % 256,
   v / 1099511627776 % 256, v / 4294967296 % 256,
   v / 16777216 % 256, v / 65536 % 256, v / 256 % 256, v % 256]

/-! ### SHA-256 (FIPS 180-4), over byte lists, words as `Nat` mod `2^32` -/

/-- Word size modulus. -/
def M32 : Nat := 4294967296

/-- 32-bit right rotation. -/
def rotr32 (x n : Nat) : Nat :=
  ((x >>> n) ||| (x <<< (32 - n))) % M32

/-- The 64 SHA-256 round constants. -/
def sha256K : List Nat :=
  [1116352408, 1899447441, 3049323471, 3921009573,
   961987163, 1508970993, 2453635748, 2870763221,
   3624381080, 310598401, 607225278, 1426881987,
   1925078388, 2162078206, 2614888103, 3248222580,
   3835390401, 4022224774, 264347078, 604807628,
   770255983, 1249150122, 1555081692, 1996064986,
   2554220882, 2821834349, 2952996808, 3210313671,
   3336571891, 3584528711, 113926993, 338241895,
   666307205, 773529912, 1294757372, 1396182291,
   1695183700, 1986661051, 2177026350, 2456956037,
   2730485921, 2820302411, 3259730800, 3345764771,
   3516065817, 3600352804, 4094571909, 275423344,
   430227734, 506948616, 659060556, 883997877,
   958139571, 1322822218, 1537002063, 1747873779,
   1955562222, 2024104815, 2227730452, 2361852424,
   2428436474, 2756734187, 3204031479, 3329325298]

/-- SHA-256 working state: eight 32-bit words. -/
structure Sha256State where
  a : Nat
  b : Nat
  c : Nat
  d : Nat
  e : Nat
  f : Nat
  g : Nat
  h : Nat
  deriving Repr, DecidableEq

/-- Initial hash value. -/
def sha256Init : Sha256State :=
  ⟨1779033703, 3144134277, 1013904242, 2773480762,
   1359893119, 2600822924, 528734635, 1541459225⟩

/-- Extend the 16 schedule words to 64. -/
def sha256Extend : List Nat → Nat → List Nat
  | ws, 0 => ws
  | ws, Nat.succ k =>
      let i := ws.length
      let w15 := ws.getD (i - 15) 0
      let w2 := ws.getD (i - 2) 0
      let s0 := (rotr32 w15 7) ^^^ (rotr32 w15 18) ^^^ (w15 >>> 3)
      let s1 := (rotr32 w2 17) ^^^ (rotr32 w2 19) ^^^ (w2 >>> 10)
      sha256Extend (ws ++ [(ws.getD (i - 16) 0 + s0 + ws.getD (i - 7) 0 + s1) % M32]) k

/-- One compression round, fed `(K[i] + W[i]) % 2^32`. -/
def sha256Round (st : Sha256State) (kw : Nat) : Sha256State :=
  let s1 := (rotr32 st.e 6) ^^^ (rotr32 st.e 11) ^^^ (rotr32 st.e 25)
  let ch := (st.e &&& st.f) ^^^ ((st.e ^^^ 4294967295) &&& st.g)
  let temp1 := (st.h + s1 + ch + kw) % M32
  let s0 := (rotr32 st.a 2) ^^^ (rotr32 st.a 13) ^^^ (rotr32 st.a 22)
  let maj := (st.a &&& st.b) ^^^ (st.a &&& st.c) ^^^ (st.b &&& st.c)
  let temp2 := (s0 + maj) % M32
  ⟨(temp1 + temp2) % M32, st.a, st.b, st.c, (st.d + temp1) % M32, st.e, st.f, st.g⟩

/-- Big-endian 32-bit word from four bytes of a block. -/
def beWordAt (block : List Nat) (j : Nat) : Nat :=
  block.getD (4 * j) 0 * 16777216 + block.getD (4 * j + 1) 0 * 65536 +
    block.getD (4 * j + 2) 0 * 256 + block.getD (4 * j + 3) 0

/-- Process one 64-byte block. -/
def sha256Block (H : Sha256State) (block : List Nat) : Sha256State :=
  let ws := sha256Extend ((List.range 16).map (beWordAt block)) 48
  let st := (List.range 64).foldl
    (fun st i => sha256Round st ((sha256K.getD i 0 + ws.getD i 0) % M32)) H
  ⟨(H.a + st.a) % M32, (H.b + st.b) % M32, (H.c + st.c) % M32, (H.d + st.d) % M32,
   (H.e + st.e) % M32, (H.f + st.f) % M32, (H.g + st.g) % M32, (H.h + st.h) % M32⟩

/-- Merkle–Damgård padding: `0x80`, zeros to 56 mod 64, 8-byte bit length. -/
def sha256Pad (msg : List Nat) : List Nat :=
  msg ++ [128] ++ List.replicate ((119 - msg.length % 64) % 64) 0 ++
    toBytesBE8 (8 * msg.length)

/-- Split into 64-byte chunks (for a nonempty list,
`(b :: l).take 64 = b :: l.take 63` and `(b :: l).drop 64 = l.drop 63`). -/
def chunk64 : List Nat → List (List Nat)
  | [] => []
  | b :: l => (b :: l.take 63) :: chunk64 (l.drop 63)
termination_by l => l.length
decreasing_by simp only [List.length_drop, List.length_cons]; omega

/-- Big-endian bytes of one state word. -/
def wordBytesBE (w : Nat) : List Nat :=
  [w / 16777216 % 256, w / 65536 % 256, w / 256 % 256, w % 256]

/-- Big-endian serialization of the final state. -/
def sha256Digest (fin : Sha256State) : List Nat :=
  wordBytesBE fin.a ++ wordBytesBE fin.b ++ wordBytesBE fin.c ++ wordBytesBE fin.d ++
    wordBytesBE fin.e ++ wordBytesBE fin.f ++ wordBytesBE fin.g ++ wordBytesBE fin.h

/-- `hashlib.sha256(msg).digest()` as a list of 32 bytes. -/
def sha256Bytes (msg : List Nat) : List Nat :=
  sha256Digest ((chunk64 (sha256Pad msg)).foldl sha256Block sha256Init)

/-- `compute_sha256` (`fetchers.py` / `backward_compat.py`):
`hashlib.sha256(data).hexdigest()`. -/
def compute_sha256 (data : List Nat) : String :=
  bytesToHex (sha256Bytes data)

/-! ### Digest shape lemmas -/

theorem sha256Bytes_length (msg : List Nat) : (sha256Bytes msg).length = 32 := by
  unfold sha256Bytes sha256Digest
  simp [wordBytesBE]

theorem wordBytesBE_lt (w : Nat) : ∀ b ∈ wordBytesBE w, b < 256 := by
  intro b hb
  simp only [wordBytesBE, List.mem_cons, List.not_mem_nil, or_false] at hb
  rcases hb with rfl | rfl | rfl | rfl <;> exact Nat.mod_lt _ (by norm_num)

theorem sha256Bytes_lt (msg : List Nat) : ∀ b ∈ sha256Bytes msg, b < 256 := by
  intro b hb
  unfold sha256Bytes sha256Digest at hb
  simp only [List.mem_append] at hb
  rcases hb with ((((((hb | hb) | hb) | hb) | hb) | hb) | hb) | hb <;>
    exact wordBytesBE_lt _ _ hb

theorem bytesToHex_length (bs : List Nat) : (bytesToHex bs).length = 2 * bs.length := by
  unfold bytesToHex
  show ((bs.map byteToHexChars).flatten).length = 2 * bs.length
  induction bs with
  | nil => rfl
  | cons b rest ih =>
      simp only [List.map_cons, List.flatten_cons, List.length_append, ih,
        byteToHexChars, List.length_cons, List.length_nil, List.length_cons]
      omega

/-- The sixteen lowercase hex characters. -/
def hexLowerChars : List Char :=
  "0123456789abcdef".toList

theorem hexDigitChar_mem (n : Nat) (hn : n < 16) : hexDigitChar n ∈ hexLowerChars := by
  interval_cases n <;> decide

theorem bytesToHex_chars (bs : List Nat) :
    ∀ c ∈ (bytesToHex bs).data, c ∈ hexLowerChars := by
  intro c hc
  unfold bytesToHex at hc
  simp only [List.mem_flatten, List.mem_map] at hc
  obtain ⟨l, ⟨b, _, rfl⟩, hcl⟩ := hc
  simp only [byteToHexChars, List.mem_cons, List.not_mem_nil, or_false] at hcl
  rcases hcl with rfl | rfl
  · exact hexDigitChar_mem _ (Nat.mod_lt _ (by norm_num))
  · exact hexDigitChar_mem _ (Nat.mod_lt _ (by norm_num))

theorem compute_sha256_length (data : List Nat) : (compute_sha256 data).length = 64 := by
  unfold compute_sha256
  rw [bytesToHex_length, sha256Bytes_length]

theorem compute_sha256_chars (data : List Nat) :
    ∀ c ∈ (compute_sha256 data).data, c ∈ hexLowerChars :=
  bytesToHex_chars _

/-! ## models.py — pydantic data model

Numeric views carry `Int` values (Python ints).  The field written
`monobit_frac` here is `monobit_ratio` in the Python source; the value is
an exact rational standing for the Python float quotient. -/

/-- `RequestInfo`. -/
structure RequestInfo where
  request_id : String
  timestamp : String
  success : Bool
  latency_ms : Nat
  errors : List String
  deriving Repr, DecidableEq

/-- `SourceData`: the same bytes exposed in several optional views. -/
structure SourceData where
  uint8 : Option (List Int) := none
  uint16 : Option (List Int) := none
  uint32 : Option (List Int) := none
  hex : Option String := none
  bytes_b64 : Option String := none
  deriving Repr, DecidableEq

/-- `Source`. -/
structure Source where
  id : String
  name : String
  endpoint : String
  method : String
  technique : String
  format_in : String
  encoding : String
  unit_bits : Nat
  count : Nat
  data : SourceData
  transform : List String
  sha256_hex : String
  fallback_used : Bool
  deriving Repr, DecidableEq

/-- Statistical series of the egg collaborator (opaque payload). -/
def EggSeries := List (Nat × List Int)
deriving instance Repr, DecidableEq for EggSeries

/-- `EggDerived`. -/
structure EggDerived where
  source : String
  persec : Option EggSeries := none
  persecz : Option EggSeries := none
  perseczcs : Option EggSeries := none
  stouffer : Option EggSeries := none
  deriving Repr, DecidableEq

/-- `Derived`. -/
structure Derived where
  iching : Option IChingDerived := none
  egg : Option EggDerived := none
  deriving Repr, DecidableEq

/-- `MetadataChecks` (`monobit_frac` is `monobit_ratio` in the source). -/
structure MetadataChecks where
  byte_len_total : Nat
  monobit_frac : Option ℚ
  deriving Repr, DecidableEq

/-- `Metadata`. -/
structure Metadata where
  description : String
  checks : MetadataChecks
  deriving Repr, DecidableEq

/-- `UnifiedResponse`. -/
structure UnifiedResponse where
  version : String
  request : RequestInfo
  sources : List Source
  derived : Derived
  metadata : Metadata
  deriving Repr, DecidableEq

/-! ## fetchers.py -/

/-- `bin(b).count("1")`: number of 1 digit characters. -/
def popCountBits (b : Nat) : Nat :=
  (natBinRev b).count '1' 

/-- `compute_monobit_ratio`: fraction of 1-bits in the first
`maxBytes` bytes; 0 for an empty sample. -/
def compute_monobit_fraction (data : List Nat) (maxBytes : Nat) : ℚ :=
  let sample := data.take maxBytes
  if sample.isEmpty then 0
  else ((sample.map popCountBits).sum : ℚ) / ((sample.length * 8 : Nat) : ℚ)

/-- Successful `fetch_anu_uint16` payload (also used by the fallback
generator, which returns the same dict shape). -/
structure AnuSuccess where
  values : List Nat
  bytes : List Nat
  url : String
  deriving Repr, DecidableEq

/-- `fetch_anu_uint16`.  The network interaction (HTTP GET + JSON) is the
oracle `net`: `.error` for a transport/parse failure (the exception text),
`.ok (success, data)` for a decoded JSON envelope.  Values are the JSON
integers (non-negative here; `to_bytes` overflow for a value `≥ 2^16` is
the final `.error` branch, caught by the Python `except`). -/
def fetch_anu_uint16 (length : Nat) (net : Except String (Bool × List Nat)) :
    Except String AnuSuccess :=
  match net with
  | .error e => .error e
  | .ok (success, values) =>
      if ¬success then .error ("ANU API returned success=false")
      else if values.length ≠ length then
        .error ("Expected " ++ toString length ++ " values, got " ++
          toString values.length)
      else if values.all (fun v => v < 65536) then
        .ok ⟨values, (values.map toBytesBE2).flatten,
          "https://qrng.anu.edu.au/API/jsonI.php?length=" ++ toString length ++
            "&type=uint16"⟩
      else .error ("int too big to convert")

/-- Successful `fetch_lfd_hex` payload. -/
structure LfdSuccess where
  hex : String
  bytes : List Nat
  uint8 : List Nat
  url : String
  deriving Repr, DecidableEq

/-- `fetch_lfd_hex`.  The oracle `net` is the decoded JSON `qrn` string
(`.error` for transport/parse failures). -/
def fetch_lfd_hex (lengthBytes : Nat) (net : Except String String) :
    Except String LfdSuccess :=
  match net with
  | .error e => .error e
  | .ok hexString =>
      if hexString.length ≠ 2 * lengthBytes then
        .error ("Expected " ++ toString (2 * lengthBytes) ++ " hex chars, got " ++
          toString hexString.length)
      else
        match hexDecode hexString with
        | none => .error ("non-hexadecimal number found in fromhex() arg")
        | some bs =>
            .ok ⟨hexString, bs, bs,
              "https://lfdr.de/qrng_api/qrng?length=" ++ toString lengthBytes ++
                "&format=HEX"⟩

/-- `generate_fallback_uint16_from_quantum`: big-endian uint16 values from
the first `2*length` quantum bytes. -/
def generate_fallback_uint16_from_quantum (quantumBytes : List Nat) (length : Nat) :
    Except String AnuSuccess :=
  if quantumBytes.length < length * 2 then
    .error ("Insufficient quantum bytes for fallback")
  else
    .ok ⟨(List.range length).map
          (fun i => 256 * quantumBytes.getD (2 * i) 0 + quantumBytes.getD (2 * i + 1) 0),
        quantumBytes.take (length * 2), "locally_determined"⟩

/-- File-read outcomes for `read_curby_local`. -/
inductive CurbyReadOutcome where
  | notFound
  | lines (raw : List String)
  | raised (msg : String)
  deriving Repr

/-- Successful `read_curby_local` payload. -/
structure CurbySuccess where
  uint32 : Option (List Int) := none
  uint8 : Option (List Int) := none
  bytes : List Nat
  selectedIndex : Nat
  totalLines : Nat
  filePath : String
  deriving Repr, DecidableEq

/-- `read_curby_local`.  `fileRead` is the file-system oracle and
`randint` models `random.seed(seed); random.randint(0, n-1)` as a pure
oracle of the seed and the upper bound.  The Python `try` converts every
exception (missing file, bad integer literal, out-of-range index from a
misbehaving oracle, `to_bytes` overflow) into an error result. -/
def read_curby_local (fileRead : CurbyReadOutcome) (randint : Nat → Nat → Nat)
    (csvPath : String) (seed : Nat) (kind : String) : Except String CurbySuccess :=
  match fileRead with
  | .notFound => .error ("File not found: " ++ csvPath)
  | .raised msg => .error msg
  | .lines raw =>
      let lines := (raw.map String.trim).filter (fun l => l ≠ "")
      if lines.isEmpty then .error ("CSV file " ++ csvPath ++ " is empty")
      else
        let idx := randint seed (lines.length - 1)
        if hidx : idx < lines.length then
          match (lines.get ⟨idx, hidx⟩).toInt? with
          | none => .error ("invalid literal for int() with base 10: " ++
              lines.get ⟨idx, hidx⟩)
          | some value =>
              if kind = "u32" then
                if 0 ≤ value ∧ value < 4294967296 then
                  .ok ⟨some [value], none, toBytesBE4 value.toNat, idx, lines.length, csvPath⟩
                else .error ("int too big to convert")
              else if kind = "u8" then
                if value > 255 then
                  .error ("Value " ++ toString value ++ " exceeds uint8 range")
                else if value < 0 then .error ("bytes must be in range(0, 256)")
                else .ok ⟨none, some [value], [value.toNat], idx, lines.length, csvPath⟩
              else .error ("Unknown kind: " ++ kind)
        else .error ("list index out of range")

/-! ## assembler.py — build_unified_response

The network, file-system, clock and egg-module effects are collected in a
`BuildEnv` oracle record; everything downstream of the raw effects is the
assembler's own logic, modelled faithfully branch by branch. -/

/-- Substring test on character lists (Python `in` on strings). -/
def charsContainSub (l sub : List Char) : Bool :=
  (List.range (l.length + 1)).any (fun i => sub.isPrefixOf (l.drop i))

/-- Python `pat in s`. -/
def strContainsSub (s pat : String) : Bool :=
  charsContainSub s.toList pat.toList

/-- Outcome of the optional egg-data collaborator
(import-time module state plus `asyncio.run(get_eggdata())`).
`moduleUnavailable none` covers an unset/empty import error
(Python falsy). -/
inductive EggOutcome where
  | moduleUnavailable (importErr : Option String)
  | raised (msg : String)
  | empty
  | fetched (persec persecz perseczcs stouffer : Option EggSeries)

/-- The egg block of `build_unified_response`: error strings recorded and
the derived egg payload, mirroring the module-availability check, the
playwright hint, the exception guard and the falsy-result guard. -/
def eggStage : EggOutcome → List String × Option EggDerived
  | .moduleUnavailable ie =>
      let errStr := match ie with | some e => e | none => "None"
      let withErr := match ie with
        | some e => "Egg data: Module not available" ++ " (" ++ e ++ ")"
        | none => "Egg data: Module not available"
      let msg := if strContainsSub errStr.toLower "playwright" then
          withErr ++ ". Install with: pip install playwright && playwright install chromium"
        else withErr
      ([msg], none)
  | .raised m => (["Egg data: " ++ m], none)
  | .empty => (["Egg data: Failed to fetch data"], none)
  | .fetched p pz pzc st => ([], some ⟨"global-mind.org", p, pz, pzc, st⟩)

/-- All effects of one `build_unified_response` call. -/
structure BuildEnv where
  requestId : String
  timestamp : String
  latencyMs : Nat
  lfdNet : Except String String
  anuNet : Except String (Bool × List Nat)
  curbyRead : CurbyReadOutcome
  randint : Nat → Nat → Nat
  egg : EggOutcome

/-- The `Source` record built for a successful LfD fetch. -/
def lfdSource (lfdBytes : Nat) (s : LfdSuccess) : Source :=
  { id := "lfd", name := "LfD Laboratorium QRNG", endpoint := s.url,
    method := "https-get", technique := "quantum_photonics_IDQ",
    format_in := "hex", encoding := "hex", unit_bits := 8, count := lfdBytes,
    data := { hex := some s.hex, uint8 := some (s.uint8.map Int.ofNat),
              bytes_b64 := some (base64Encode s.bytes) },
    transform := ["decode:hex"], sha256_hex := compute_sha256 s.bytes,
    fallback_used := false }

/-- The `Source` record built for a successful (native or fallback) ANU
result. -/
def anuSourceOf (anuLen : Nat) (fallback : Bool) (s : AnuSuccess) : Source :=
  { id := "anu", name := "ANU Quantum Random Numbers", endpoint := s.url,
    method := "https-get",
    technique := if fallback then "quantum_photonics_IDQ_seeded"
      else "vacuum_fluctuation_optics",
    format_in := "uint16", encoding := "none", unit_bits := 16, count := anuLen,
    data := { uint16 := some (s.values.map Int.ofNat),
              bytes_b64 := some (base64Encode s.bytes) },
    transform := if fallback then ["derive:lfd[0..11]"] else ["none"],
    sha256_hex := compute_sha256 s.bytes, fallback_used := fallback }

/-- The `Source` record built for a successful CURBy read. -/
def curbySourceOf (curbyKind : String) (curbyCount : Nat) (c : CurbySuccess) : Source :=
  { id := "curby_local", name := "CURBy Local Quantum Data",
    endpoint := "file://" ++ c.filePath, method := "file",
    technique := "sha3_extracted_quantum",
    format_in := if curbyKind = "u32" then "uint32" else "uint8",
    encoding := "none", unit_bits := if curbyKind = "u32" then 32 else 8,
    count := curbyCount,
    data := { uint32 := if curbyKind = "u32" then c.uint32 else none,
              uint8 := if curbyKind = "u8" then c.uint8 else none,
              bytes_b64 := some (base64Encode c.bytes) },
    transform := ["packing:1->0,2->1(msb)", "extractor:sha3-256-block"],
    sha256_hex := compute_sha256 c.bytes, fallback_used := false }

/-- Accumulated state after the LfD block. -/
structure LfdStageOut where
  sources : List Source
  errors : List String
  lfdData : Option (List Nat)
  bytes : List Nat
  deriving Repr, DecidableEq

/-- LfD block: append the source on success, record the error otherwise,
and retain the raw bytes for fallback use. -/
def lfdStage (lfdBytes : Nat) (r : Except String LfdSuccess) : LfdStageOut :=
  match r with
  | .ok s => ⟨[lfdSource lfdBytes s], [], some s.bytes, s.bytes⟩
  | .error e => ⟨[], ["LfD QRNG: " ++ e], none, []⟩

deriving instance DecidableEq for Except

/-- Result of the ANU block before the source record is appended. -/
structure AnuStageOut where
  result : Except String AnuSuccess
  fallback : Bool
  errors : List String
  deriving Repr, DecidableEq

/-- ANU block: on fetch failure, fall back to the retained LfD bytes when
they are truthy (present and nonempty); errors follow the Python
branches (`ANU QRNG (fallback): …` when the fallback itself fails). -/
def anuStage (anuLen : Nat) (fetched : Except String AnuSuccess)
    (lfdData : Option (List Nat)) : AnuStageOut :=
  match fetched with
  | .ok s => ⟨.ok s, false, []⟩
  | .error e =>
      match lfdData with
      | some bs =>
          if bs.isEmpty then ⟨.error e, false, ["ANU QRNG: " ++ e]⟩
          else
            match generate_fallback_uint16_from_quantum bs anuLen with
            | .ok s => ⟨.ok s, true, []⟩
            | .error e2 => ⟨.error e2, true, ["ANU QRNG (fallback): " ++ e2]⟩
      | none => ⟨.error e, false, ["ANU QRNG: " ++ e]⟩

/-- Accumulated state of the CURBy block. -/
structure CurbyStageOut where
  sources : List Source
  errors : List String
  bytes : List Nat
  deriving Repr, DecidableEq

/-- CURBy block: only runs when a seed exists (first ANU uint16). -/
def curbyStage (env : BuildEnv) (curbyKind curbyPath : String) (curbyCount : Nat)
    (seed : Option Nat) : CurbyStageOut :=
  match seed with
  | some sd =>
      match read_curby_local env.curbyRead env.randint curbyPath sd curbyKind with
      | .ok c => ⟨[curbySourceOf curbyKind curbyCount c], [], c.bytes⟩
      | .error e => ⟨[], ["CURBy local: " ++ e], []⟩
  | none => ⟨[], ["CURBy local: No seed available (ANU fetch failed)"], []⟩

/-- I Ching block: requires the derivation flag, truthy LfD bytes and at
least 18 of them; casts from bytes 12–17. -/
def ichingStage (includeIching : Bool) (lfdData : Option (List Nat)) :
    Option IChingDerived × List String :=
  if includeIching then
    match lfdData with
    | some bs =>
        if bs ≠ [] ∧ 18 ≤ bs.length then
          match cast_iching_hexagram ((bs.drop 12).take 6) "lfd[bytes 12..17]" with
          | .ok d => (some d, [])
          | .error e => (none, ["I Ching derivation: " ++ e])
        else (none, [])
    | none => (none, [])
  else (none, [])

/-- Tail of `build_unified_response` after the ANU result (and the seed,
when one exists) are fixed: CURBy, I Ching, egg, integrity metadata and
the final `UnifiedResponse` record; `success := errors == []`. -/
def buildRest (env : BuildEnv) (curbyKind curbyPath : String) (curbyCount : Nat)
    (includeIching includeEgg : Bool) (sources2 : List Source) (errors2 : List String)
    (lfdData : Option (List Nat)) (allBytes2 : List Nat) (seed : Option Nat) :
    UnifiedResponse :=
  let cs := curbyStage env curbyKind curbyPath curbyCount seed
  let ist := ichingStage includeIching lfdData
  let es := if includeEgg then eggStage env.egg else ([], none)
  let allBytes := allBytes2 ++ cs.bytes
  let errors := errors2 ++ cs.errors ++ ist.2 ++ es.1
  { version := "1.0"
    request := { request_id := env.requestId, timestamp := env.timestamp,
                 success := errors.isEmpty, latency_ms := env.latencyMs,
                 errors := errors }
    sources := sources2 ++ cs.sources
    derived := { iching := ist.1, egg := es.2 }
    metadata := { description := "Combined quantum randomness with I Ching derivation and Global Consciousness Project egg data (https://global-mind.org/realtime/)"
                  checks := { byte_len_total := allBytes.length
                              monobit_frac := if allBytes.isEmpty then none
                                else some (compute_monobit_fraction allBytes 1024) } } }

/-- Dispatch on the ANU block's outcome: on success append the ANU
source and take the first uint16 value as the CURBy seed — the
`seed = anu_result["data_uint16"][0]` indexing on an empty value list
(only reachable with `anu_len = 0`) is the one uncaught exception of
the Python function, the `.error "list index out of range"` branch. -/
def buildFromStages (env : BuildEnv) (curbyKind curbyPath : String) (curbyCount : Nat)
    (includeIching includeEgg : Bool) (anuLen lfdBytes : Nat)
    (lp : LfdStageOut) (ap : AnuStageOut) : Except String UnifiedResponse :=
  match ap.result with
  | .ok s =>
      match s.values with
      | [] => .error ("list index out of range")
      | v0 :: _ =>
          .ok (buildRest env curbyKind curbyPath curbyCount includeIching includeEgg
            (lp.sources ++ [anuSourceOf anuLen ap.fallback s])
            (lp.errors ++ ap.errors) lp.lfdData (lp.bytes ++ s.bytes) (some v0))
  | .error _ =>
      .ok (buildRest env curbyKind curbyPath curbyCount includeIching includeEgg
        lp.sources (lp.errors ++ ap.errors) lp.lfdData lp.bytes none)

/-- `build_unified_response`: LfD block first (its bytes retained for
fallback), then the ANU block with fallback, then the dispatch above. -/
def buildUnifiedResponse (env : BuildEnv) (anuLen lfdBytes : Nat)
    (curbyKind curbyPath : String) (curbyCount : Nat)
    (includeIching includeEgg : Bool) : Except String UnifiedResponse :=
  buildFromStages env curbyKind curbyPath curbyCount includeIching includeEgg
    anuLen lfdBytes (lfdStage lfdBytes (fetch_lfd_hex lfdBytes env.lfdNet))
    (anuStage anuLen (fetch_anu_uint16 anuLen env.anuNet)
      (lfdStage lfdBytes (fetch_lfd_hex lfdBytes env.lfdNet)).lfdData)

/-! ## backward_compat.py — legacy_to_unified

Legacy sub-objects are modelled with the `.get` defaults of the Python
code baked into the field defaults; missing sub-objects are `none`.
Data values are `Int` (Python ints), so the `to_bytes` failure conditions
(negative or too wide) are explicit checks.  The pydantic `Literal` check
on `technique` and the `IChingDerived` field validators are the explicit
validation branches; any exception propagates as `.error`. -/

/-- The `technique` Literal alternatives of `models.Source`. -/
def validTechniques : List String :=
  ["vacuum_fluctuation_optics", "quantum_photonics_IDQ",
   "quantum_photonics_IDQ_seeded", "sha3_extracted_quantum", "yarrow_stick"]

/-- Legacy `source1_anu_qrng` after `.get` defaults. -/
structure LegacyS1 where
  data : List Int := []
  url : String := "unknown"
  generation_technique : String := "vacuum_fluctuation_optics"
  fallback_used : Bool := false
  deriving Repr, DecidableEq

/-- Legacy `source2_lfd_qrng` after `.get` defaults. -/
structure LegacyS2 where
  data : String := ""
  url : String := "unknown"
  generation_technique : String := "quantum_photonics_IDQ"
  deriving Repr, DecidableEq

/-- Legacy `source3_local_csv` after `.get` defaults. -/
structure LegacyS3 where
  type : Option String := none
  data : Int := 0
  file : String := "unknown"
  generation_technique : String := "sha3_extracted_quantum"
  deriving Repr, DecidableEq

/-- Legacy `source4_iching` after `.get` defaults. -/
structure LegacyS4 where
  lines : List Int := []
  original_hexagram : Int := 1
  original_hexagram_binary : Int := 0
  resulting_hexagram : Int := 1
  resulting_hexagram_binary : Int := 0
  has_changing_lines : Bool := false
  changing_line_positions : List Int := []
  random_source : String := "unknown"
  deriving Repr, DecidableEq

/-- A legacy payload: four independently optional sub-objects. -/
structure LegacyPayload where
  source1_anu_qrng : Option LegacyS1 := none
  source2_lfd_qrng : Option LegacyS2 := none
  source3_local_csv : Option LegacyS3 := none
  source4_iching : Option LegacyS4 := none
  deriving Repr, DecidableEq

/-- Conversion of `source1_anu_qrng`: reconstruct raw bytes big-endian
from the uint16 values and recompute the digest over them. -/
def convLegacyS1 : Option LegacyS1 → Except String (List Source × List Nat)
  | none => .ok ([], [])
  | some s1 =>
      if ∀ v ∈ s1.data, 0 ≤ v ∧ v < 65536 then
        let dataBytes := (s1.data.map (fun v => toBytesBE2 v.toNat)).flatten
        if s1.generation_technique ∈ validTechniques then
          .ok ([{ id := "anu", name := "ANU Quantum Random Numbers",
                  endpoint := s1.url, method := "https-get",
                  technique := s1.generation_technique, format_in := "uint16",
                  encoding := "none", unit_bits := 16, count := s1.data.length,
                  data := { uint16 := some s1.data,
                            bytes_b64 := some (base64Encode dataBytes) },
                  transform := if s1.fallback_used then ["derive:lfd[0..11]"]
                    else ["none"],
                  sha256_hex := compute_sha256 dataBytes,
                  fallback_used := s1.fallback_used }], dataBytes)
        else .error ("validation error for Source: technique")
      else .error ("to_bytes overflow for uint16 value")

/-- Conversion of `source2_lfd_qrng`: hex-decode and recompute the
digest over the decoded bytes. -/
def convLegacyS2 : Option LegacyS2 → Except String (List Source × List Nat)
  | none => .ok ([], [])
  | some s2 =>
      match hexDecode s2.data with
      | none => .error ("non-hexadecimal number found in fromhex() arg")
      | some bs =>
          if s2.generation_technique ∈ validTechniques then
            .ok ([{ id := "lfd", name := "LfD Laboratorium QRNG",
                    endpoint := s2.url, method := "https-get",
                    technique := s2.generation_technique, format_in := "hex",
                    encoding := "hex", unit_bits := 8, count := bs.length,
                    data := { hex := some s2.data, uint8 := some (bs.map Int.ofNat),
                              bytes_b64 := some (base64Encode bs) },
                    transform := ["decode:hex"],
                    sha256_hex := compute_sha256 bs,
                    fallback_used := false }], bs)
          else .error ("validation error for Source: technique")

/-- Conversion of `source3_local_csv`: only converted when the legacy
`type` is `"uint32"`, otherwise silently skipped. -/
def convLegacyS3 : Option LegacyS3 → Except String (List Source × List Nat)
  | none => .ok ([], [])
  | some s3 =>
      if s3.type = some "uint32" then
        if 0 ≤ s3.data ∧ s3.data < 4294967296 then
          let dataBytes := toBytesBE4 s3.data.toNat
          if s3.generation_technique ∈ validTechniques then
            .ok ([{ id := "curby_local", name := "CURBy Local Quantum Data",
                    endpoint := "file://" ++ s3.file, method := "file",
                    technique := s3.generation_technique, format_in := "uint32",
                    encoding := "none", unit_bits := 32, count := 1,
                    data := { uint32 := some [s3.data],
                              bytes_b64 := some (base64Encode dataBytes) },
                    transform := ["packing:1->0,2->1(msb)", "extractor:sha3-256-block"],
                    sha256_hex := compute_sha256 dataBytes,
                    fallback_used := false }], dataBytes)
          else .error ("validation error for Source: technique")
        else .error ("to_bytes overflow for uint32 value")
      else .ok ([], [])

/-- Conversion of `source4_iching`: the condition is the conjunction of
the `IChingDerived` pydantic validators (for an integer `v`, the
6-character 0/1 binary-string constraints hold exactly when
`0 ≤ v ≤ 63`, which the `bin2dec` bounds also require). -/
def convLegacyS4 : Option LegacyS4 → Except String (Option IChingDerived)
  | none => .ok none
  | some s4 =>
      if s4.lines.length = 6 ∧ (∀ l ∈ s4.lines, l = 6 ∨ l = 7 ∨ l = 8 ∨ l = 9) ∧
          1 ≤ s4.original_hexagram ∧ s4.original_hexagram ≤ 64 ∧
          1 ≤ s4.resulting_hexagram ∧ s4.resulting_hexagram ≤ 64 ∧
          0 ≤ s4.original_hexagram_binary ∧ s4.original_hexagram_binary ≤ 63 ∧
          0 ≤ s4.resulting_hexagram_binary ∧ s4.resulting_hexagram_binary ≤ 63 then
        .ok (some
          { technique := "yarrow_stick"
            derived_from := s4.random_source
            lines := s4.lines.map Int.toNat
            original_hexagram := s4.original_hexagram.toNat
            original_hexagram_bin := binary_to_string s4.original_hexagram_binary.toNat
            original_hexagram_bin2dec := s4.original_hexagram_binary.toNat
            resulting_hexagram := s4.resulting_hexagram.toNat
            resulting_hexagram_bin := binary_to_string s4.resulting_hexagram_binary.toNat
            resulting_hexagram_bin2dec := s4.resulting_hexagram_binary.toNat
            has_changing_lines := s4.has_changing_lines
            changing_line_positions := s4.changing_line_positions })
      else .error ("validation error for IChingDerived")

/-- `legacy_to_unified`.  `requestId`/`timestamp` stand for the fresh
UUID and clock reading. -/
def legacy_to_unified (requestId timestamp : String) (p : LegacyPayload) :
    Except String UnifiedResponse :=
  match convLegacyS1 p.source1_anu_qrng with
  | .error e => .error e
  | .ok (l1, b1) =>
      match convLegacyS2 p.source2_lfd_qrng with
      | .error e => .error e
      | .ok (l2, b2) =>
          match convLegacyS3 p.source3_local_csv with
          | .error e => .error e
          | .ok (l3, b3) =>
              match convLegacyS4 p.source4_iching with
              | .error e => .error e
              | .ok ich =>
                  .ok { version := "1.0"
                        request := { request_id := requestId, timestamp := timestamp,
                                     success := true, latency_ms := 0, errors := [] }
                        sources := l1 ++ l2 ++ l3
                        derived := { iching := ich, egg := none }
                        metadata := { description := "Converted from legacy format"
                                      checks := { byte_len_total := (b1 ++ b2 ++ b3).length
                                                  monobit_frac := none } } }

/-! ## Well-formedness (the pydantic validators of `models.py`) -/

/-- The pydantic constraints on a `Source` that the shallow embedding can
state: method/technique/format/encoding Literal alternatives and the
64-lowercase-hex digest. -/
def SourceWF (s : Source) : Prop :=
  (s.method = "https-get" ∨ s.method = "file") ∧
  s.technique ∈ validTechniques ∧
  (s.format_in = "uint8" ∨ s.format_in = "uint16" ∨ s.format_in = "uint32" ∨
    s.format_in = "hex") ∧
  (s.encoding = "none" ∨ s.encoding = "hex" ∨ s.encoding = "base64") ∧
  s.sha256_hex.length = 64 ∧ (∀ c ∈ s.sha256_hex.data, c ∈ hexLowerChars)

/-- The pydantic constraints on `IChingDerived`. -/
def IChingWF (d : IChingDerived) : Prop :=
  d.lines.length = 6 ∧ (∀ l ∈ d.lines, l = 6 ∨ l = 7 ∨ l = 8 ∨ l = 9) ∧
  1 ≤ d.original_hexagram ∧ d.original_hexagram ≤ 64 ∧
  1 ≤ d.resulting_hexagram ∧ d.resulting_hexagram ≤ 64 ∧
  d.original_hexagram_bin.length = 6 ∧
  (∀ c ∈ d.original_hexagram_bin.data, c = '0' ∨ c = '1') ∧
  d.resulting_hexagram_bin.length = 6 ∧
  (∀ c ∈ d.resulting_hexagram_bin.data, c = '0' ∨ c = '1') ∧
  d.original_hexagram_bin2dec ≤ 63 ∧ d.resulting_hexagram_bin2dec ≤ 63

/-- Well-formedness of a whole response: every source validates, any
I Ching derivation validates, and any monobit fraction lies in `[0,1]`. -/
def ResponseWF (r : UnifiedResponse) : Prop :=
  (∀ s ∈ r.sources, SourceWF s) ∧
  (∀ d, r.derived.iching = some d → IChingWF d) ∧
  (∀ q, r.metadata.checks.monobit_frac = some q → 0 ≤ q ∧ q ≤ 1)

/-! ### Binary strings -/

theorem natBinRev_length_le : ∀ (k b : Nat), b < 2 ^ k → (natBinRev b).length ≤ k := by
  intro k
  induction k with
  | zero =>
      intro b hb
      interval_cases b
      simp [natBinRev]
  | succ m ih =>
      intro b hb
      match b with
      | 0 => simp [natBinRev]
      | n + 1 =>
          rw [natBinRev]
          simp only [List.length_cons]
          have hdiv : (n + 1) / 2 < 2 ^ m := by
            have h2 : (2 : Nat) ^ (m + 1) = 2 * 2 ^ m := by ring
            omega
          exact Nat.succ_le_succ (ih _ hdiv)

theorem natBinRev_chars : ∀ (b : Nat), ∀ c ∈ natBinRev b, c = '0' ∨ c = '1' := by
  intro b
  induction b using Nat.strong_induction_on with
  | _ b ih =>
      match b with
      | 0 => simp [natBinRev]
      | n + 1 =>
          rw [natBinRev]
          intro c hc
          rcases List.mem_cons.mp hc with rfl | hc2
          · split <;> simp
          · exact ih ((n + 1) / 2) (Nat.div_lt_self (Nat.succ_pos n) (by omega)) c hc2

theorem binary_to_string_length (b : Nat) (hb : b < 64) :
    (binary_to_string b).length = 6 := by
  unfold binary_to_string
  have hlen : (natBinRev b).length ≤ 6 := natBinRev_length_le 6 b (by norm_num; omega)
  show (List.replicate (6 - (natBinRev b).reverse.length) '0' ++
    (natBinRev b).reverse).length = 6
  simp only [List.length_append, List.length_replicate, List.length_reverse]
  omega

theorem binary_to_string_chars (b : Nat) :
    ∀ c ∈ (binary_to_string b).data, c = '0' ∨ c = '1' := by
  intro c hc
  unfold binary_to_string at hc
  have hc2 : c ∈ List.replicate (6 - (natBinRev b).reverse.length) '0' ++
      (natBinRev b).reverse := hc
  rcases List.mem_append.mp hc2 with h | h
  · left; exact List.eq_of_mem_replicate h
  · exact natBinRev_chars b c (List.mem_reverse.mp h)

/-! ### The cast hexagram validates -/

theorem king_wen_mem_bounds : ∀ x ∈ KING_WEN_SEQUENCE, 1 ≤ x ∧ x ≤ 64 := by decide

theorem king_wen_getD_bounds (idx : Nat) (h : idx < 64) :
    1 ≤ KING_WEN_SEQUENCE.getD idx 0 ∧ KING_WEN_SEQUENCE.getD idx 0 ≤ 64 := by
  have hlen : idx < KING_WEN_SEQUENCE.length := by
    have h64 : KING_WEN_SEQUENCE.length = 64 := rfl
    omega
  have hmem : KING_WEN_SEQUENCE.getD idx 0 ∈ KING_WEN_SEQUENCE := by
    rw [List.getD_eq_getElem?_getD, List.getElem?_eq_getElem hlen]
    exact List.getElem_mem _
  exact king_wen_mem_bounds _ hmem

theorem cast_lines_length (bs : List Nat) :
    ((List.range 6).map (fun i => cast_yarrow_line (bs.getD i 0))).length = 6 := by
  simp

theorem cast_lines_mem (bs : List Nat) :
    ∀ l ∈ (List.range 6).map (fun i => cast_yarrow_line (bs.getD i 0)),
      l = 6 ∨ l = 7 ∨ l = 8 ∨ l = 9 := by
  intro l hl
  rcases List.mem_map.mp hl with ⟨i, _, rfl⟩
  have := cast_yarrow_line_mem (bs.getD i 0)
  simpa using this

theorem transform_mem (lines : List Nat)
    (h : ∀ l ∈ lines, l = 6 ∨ l = 7 ∨ l = 8 ∨ l = 9) :
    ∀ l ∈ transform_changing_lines lines, l = 6 ∨ l = 7 ∨ l = 8 ∨ l = 9 := by
  intro l hl
  unfold transform_changing_lines at hl
  rcases List.mem_map.mp hl with ⟨x, hx, rfl⟩
  rcases h x hx with rfl | rfl | rfl | rfl <;> simp

theorem cast_iching_hexagram_wf (bs : List Nat) (ref : String) (d : IChingDerived)
    (h : cast_iching_hexagram bs ref = .ok d) : IChingWF d := by
  unfold cast_iching_hexagram at h
  split_ifs at h
  injection h with h
  subst h
  have hlines := cast_lines_mem bs
  have hlen : ((List.range 6).map (fun i => cast_yarrow_line (bs.getD i 0))).length = 6 :=
    cast_lines_length bs
  have h64 : (2 : Nat) ^ 6 = 64 := by norm_num
  have hbin : lines_to_binary
      ((List.range 6).map (fun i => cast_yarrow_line (bs.getD i 0))) < 64 := by
    have := lines_to_binary_lt ((List.range 6).map (fun i => cast_yarrow_line (bs.getD i 0)))
    rw [hlen, h64] at this
    exact this
  have hlent : (transform_changing_lines
      ((List.range 6).map (fun i => cast_yarrow_line (bs.getD i 0)))).length = 6 := by
    unfold transform_changing_lines
    rw [List.length_map, hlen]
  have hbint : lines_to_binary (transform_changing_lines
      ((List.range 6).map (fun i => cast_yarrow_line (bs.getD i 0)))) < 64 := by
    have := lines_to_binary_lt (transform_changing_lines
      ((List.range 6).map (fun i => cast_yarrow_line (bs.getD i 0))))
    rw [hlent, h64] at this
    exact this
  refine ⟨hlen, hlines, ?_, ?_, ?_, ?_, ?_, ?_, ?_, ?_, ?_, ?_⟩
  · exact (king_wen_getD_bounds _ hbin).1
  · exact (king_wen_getD_bounds _ hbin).2
  · exact (king_wen_getD_bounds _ hbint).1
  · exact (king_wen_getD_bounds _ hbint).2
  · exact binary_to_string_length _ hbin
  · exact binary_to_string_chars _
  · exact binary_to_string_length _ hbint
  · exact binary_to_string_chars _
  · show lines_to_binary ((List.range 6).map (fun i => cast_yarrow_line (bs.getD i 0))) ≤ 63
    omega
  · show lines_to_binary (transform_changing_lines
      ((List.range 6).map (fun i => cast_yarrow_line (bs.getD i 0)))) ≤ 63
    omega

/-! ### Byte-range lemmas for the fetchers -/

theorem hexDigitVal_lt (c : Char) (v : Nat) (h : hexDigitVal c = some v) : v < 16 := by
  unfold hexDigitVal at h
  split_ifs at h with h1 h2 h3
  · injection h with h
    subst h
    have hle : c.toNat ≤ 57 := h1.2
    omega
  · injection h with h
    subst h
    have hle : c.toNat ≤ 102 := h2.2
    have hge : 97 ≤ c.toNat := h2.1
    omega
  · injection h with h
    subst h
    have hle : c.toNat ≤ 70 := h3.2
    have hge : 65 ≤ c.toNat := h3.1
    omega

theorem hexDecodeChars_lt :
    ∀ (l : List Char) (bs : List Nat), hexDecodeChars l = some bs →
      ∀ b ∈ bs, b < 256 := by
  intro l
  induction l using hexDecodeChars.induct with
  | case1 =>
      intro bs h b hb
      simp only [hexDecodeChars] at h
      injection h with h
      subst h
      simp at hb
  | case2 c1 c2 rest ih =>
      intro bs h b hb
      simp only [hexDecodeChars, Option.bind_eq_bind, Option.bind_eq_some] at h
      obtain ⟨hi, hhi, lo, hlo, tail, htail, hcons⟩ := h
      injection hcons with hcons
      subst hcons
      rcases List.mem_cons.mp hb with rfl | hb2
      · have := hexDigitVal_lt c1 hi hhi
        have := hexDigitVal_lt c2 lo hlo
        omega
      · exact ih tail htail b hb2
  | case3 x =>
      intro bs h
      simp [hexDecodeChars] at h

theorem hexDecodeChars_length :
    ∀ (l : List Char) (bs : List Nat), hexDecodeChars l = some bs →
      l.length = 2 * bs.length := by
  intro l
  induction l using hexDecodeChars.induct with
  | case1 =>
      intro bs h
      simp only [hexDecodeChars] at h
      injection h with h
      subst h
      rfl
  | case2 c1 c2 rest ih =>
      intro bs h
      simp only [hexDecodeChars, Option.bind_eq_bind, Option.bind_eq_some] at h
      obtain ⟨hi, _, lo, _, tail, htail, hcons⟩ := h
      injection hcons with hcons
      subst hcons
      have := ih tail htail
      simp only [List.length_cons]
      omega
  | case3 x =>
      intro bs h
      simp [hexDecodeChars] at h

theorem fetch_lfd_hex_ok (n : Nat) (net : Except String String) (s : LfdSuccess)
    (h : fetch_lfd_hex n net = .ok s) :
    s.bytes.length = n ∧ (∀ b ∈ s.bytes, b < 256) ∧ s.uint8 = s.bytes := by
  unfold fetch_lfd_hex at h
  match net with
  | .error e => simp at h
  | .ok hexString =>
      simp only at h
      split_ifs at h with hlen
      rcases hdec : hexDecode hexString with _ | bs <;> rw [hdec] at h
      · simp at h
      · injection h with h
        subst h
        have hl := hexDecodeChars_length hexString.toList bs hdec
        have hlt := hexDecodeChars_lt hexString.toList bs hdec
        refine ⟨?_, hlt, rfl⟩
        have hsl : hexString.length = hexString.toList.length := rfl
        show bs.length = n
        omega

theorem toBytesBE2_lt (v : Nat) : ∀ b ∈ toBytesBE2 v, b < 256 := by
  intro b hb
  unfold toBytesBE2 at hb
  rcases List.mem_cons.mp hb with rfl | hb2
  · exact Nat.mod_lt _ (by norm_num)
  · rcases List.mem_cons.mp hb2 with rfl | hb3
    · exact Nat.mod_lt _ (by norm_num)
    · simp at hb3

theorem toBytesBE4_lt (v : Nat) : ∀ b ∈ toBytesBE4 v, b < 256 := by
  intro b hb
  unfold toBytesBE4 at hb
  simp only [List.mem_cons, List.not_mem_nil, or_false] at hb
  rcases hb with rfl | rfl | rfl | rfl <;> exact Nat.mod_lt _ (by norm_num)

theorem fetch_anu_uint16_ok (len : Nat) (net : Except String (Bool × List Nat))
    (s : AnuSuccess) (h : fetch_anu_uint16 len net = .ok s) :
    s.values.length = len ∧ (∀ b ∈ s.bytes, b < 256) := by
  unfold fetch_anu_uint16 at h
  match net with
  | .error e => simp at h
  | .ok (success, values) =>
      simp only at h
      split_ifs at h with h1 h2 h3
      injection h with h
      subst h
      refine ⟨by show values.length = len; omega, ?_⟩
      intro b hb
      simp only [List.mem_flatten, List.mem_map] at hb
      obtain ⟨l, ⟨v, _, rfl⟩, hbl⟩ := hb
      exact toBytesBE2_lt v b hbl

theorem generate_fallback_ok (qb : List Nat) (len : Nat) (s : AnuSuccess)
    (h : generate_fallback_uint16_from_quantum qb len = .ok s) :
    s.values.length = len ∧ s.bytes = qb.take (len * 2) := by
  unfold generate_fallback_uint16_from_quantum at h
  split_ifs at h
  injection h with h
  subst h
  exact ⟨by simp, rfl⟩

theorem anuStage_ok (len : Nat) (fetched : Except String AnuSuccess)
    (ld : Option (List Nat)) (s : AnuSuccess)
    (h : (anuStage len fetched ld).result = .ok s) :
    fetched = .ok s ∨
      ∃ bs, ld = some bs ∧ generate_fallback_uint16_from_quantum bs len = .ok s := by
  match fetched with
  | .ok s2 =>
      exact .inl h
  | .error e =>
      match ld with
      | none =>
          simp [anuStage] at h
      | some bs =>
          cases hemp : bs.isEmpty with
          | true => simp [anuStage, hemp] at h
          | false =>
              simp only [anuStage, hemp, Bool.false_eq_true, if_false] at h
              rcases hfb : generate_fallback_uint16_from_quantum bs len with e2 | s2 <;>
                rw [hfb] at h
              · simp at h
              · have h2 : Except.ok (ε := String) s2 = .ok s := h
                injection h2 with h2
                subst h2
                exact .inr ⟨bs, rfl, hfb⟩

theorem read_curby_local_ok (fr : CurbyReadOutcome) (ri : Nat → Nat → Nat)
    (path : String) (seed : Nat) (kind : String) (c : CurbySuccess)
    (h : read_curby_local fr ri path seed kind = .ok c) :
    ∀ b ∈ c.bytes, b < 256 := by
  unfold read_curby_local at h
  match fr with
  | .notFound => simp at h
  | .raised m => simp at h
  | .lines raw =>
      simp only at h
      split_ifs at h with hemp hidx hk32 hk8
      all_goals try (simp at h; done)
      all_goals try (split at h)
      all_goals try (simp at h; done)
      all_goals try (split_ifs at h)
      all_goals try (simp at h; done)
      all_goals (injection h with h; subst h; intro b hb)
      all_goals first
        | exact toBytesBE4_lt _ b hb
        | (have hb2 := List.mem_singleton.mp hb; subst hb2; omega)

/-! ### The three source builders validate and carry the digest invariant -/

theorem lfdSource_wf (n : Nat) (s : LfdSuccess) : SourceWF (lfdSource n s) := by
  refine ⟨.inl rfl, ?_, .inr (.inr (.inr rfl)), .inr (.inl rfl), compute_sha256_length _,
    compute_sha256_chars _⟩
  exact (by decide : ("quantum_photonics_IDQ" : String) ∈ validTechniques)

theorem anuSourceOf_wf (n : Nat) (fb : Bool) (s : AnuSuccess) :
    SourceWF (anuSourceOf n fb s) := by
  refine ⟨.inl rfl, ?_, .inr (.inl rfl), .inl rfl, compute_sha256_length _,
    compute_sha256_chars _⟩
  cases fb
  · exact (by decide : ("vacuum_fluctuation_optics" : String) ∈ validTechniques)
  · exact (by decide : ("quantum_photonics_IDQ_seeded" : String) ∈ validTechniques)

theorem curbySourceOf_wf (kind : String) (cnt : Nat) (c : CurbySuccess) :
    SourceWF (curbySourceOf kind cnt c) := by
  refine ⟨.inr rfl,
    (by decide : ("sha3_extracted_quantum" : String) ∈ validTechniques), ?_,
    .inl rfl, compute_sha256_length _, compute_sha256_chars _⟩
  by_cases hk : kind = "u32"
  · rw [show (curbySourceOf kind cnt c).format_in = "uint32" from by
      simp [curbySourceOf, hk]]
    exact .inr (.inr (.inl rfl))
  · rw [show (curbySourceOf kind cnt c).format_in = "uint8" from by
      simp [curbySourceOf, hk]]
    exact .inl rfl

/-- The digest invariant of one source record: `sha256_hex` is the digest
of the raw bytes whose base64 encoding backs `data.bytes_b64`, and it is a
64-character lowercase hex string. -/
def SourceDigestWF (s : Source) : Prop :=
  ∃ raw : List Nat, s.sha256_hex = compute_sha256 raw ∧
    s.data.bytes_b64 = some (base64Encode raw) ∧
    s.sha256_hex.length = 64 ∧ (∀ c ∈ s.sha256_hex.data, c ∈ hexLowerChars)

theorem lfdSource_digest (n : Nat) (s : LfdSuccess) : SourceDigestWF (lfdSource n s) :=
  ⟨s.bytes, rfl, rfl, compute_sha256_length _, compute_sha256_chars _⟩

theorem anuSourceOf_digest (n : Nat) (fb : Bool) (s : AnuSuccess) :
    SourceDigestWF (anuSourceOf n fb s) :=
  ⟨s.bytes, rfl, rfl, compute_sha256_length _, compute_sha256_chars _⟩

theorem curbySourceOf_digest (kind : String) (cnt : Nat) (c : CurbySuccess) :
    SourceDigestWF (curbySourceOf kind cnt c) :=
  ⟨c.bytes, rfl, rfl, compute_sha256_length _, compute_sha256_chars _⟩

/-! ### Monobit fraction bounds -/

theorem popCountBits_le_eight (b : Nat) (hb : b < 256) : popCountBits b ≤ 8 := by
  unfold popCountBits
  calc (natBinRev b).count '1' ≤ (natBinRev b).length := List.count_le_length _ _
    _ ≤ 8 := natBinRev_length_le 8 b (by norm_num; omega)

theorem compute_monobit_fraction_bounds (data : List Nat) (maxBytes : Nat)
    (hd : ∀ b ∈ data, b < 256) :
    0 ≤ compute_monobit_fraction data maxBytes ∧
      compute_monobit_fraction data maxBytes ≤ 1 := by
  unfold compute_monobit_fraction
  by_cases hs : (data.take maxBytes).isEmpty
  · rw [if_pos hs]
    norm_num
  · rw [if_neg hs]
    have hsample : ∀ b ∈ data.take maxBytes, b < 256 := by
      intro b hb
      exact hd b (List.mem_of_mem_take hb)
    have hlenpos : 0 < (data.take maxBytes).length := by
      rcases hst : data.take maxBytes with _ | ⟨x, xs⟩
      · rw [hst] at hs; simp at hs
      · simp [hst]
    have hsum : ((data.take maxBytes).map popCountBits).sum ≤
        (data.take maxBytes).length * 8 := by
      have := List.sum_le_card_nsmul ((data.take maxBytes).map popCountBits) 8 ?_
      · simpa [smul_eq_mul, Nat.mul_comm] using this
      · intro x hx
        rcases List.mem_map.mp hx with ⟨b, hb, rfl⟩
        exact popCountBits_le_eight b (hsample b hb)
    constructor
    · positivity
    · rw [div_le_one (by positivity)]
      exact_mod_cast hsum

/-! ### Where the sources of a built response come from -/

theorem curbyStage_sources (env : BuildEnv) (kind path : String) (cnt : Nat)
    (seed : Option Nat) :
    ∀ s ∈ (curbyStage env kind path cnt seed).sources,
      ∃ c, s = curbySourceOf kind cnt c ∧
        read_curby_local env.curbyRead env.randint path (seed.getD 0) kind = .ok c := by
  intro s hs
  match seed with
  | none => simp [curbyStage] at hs
  | some sd =>
      simp only [curbyStage] at hs
      rcases hr : read_curby_local env.curbyRead env.randint path sd kind with e | c <;>
        rw [hr] at hs
      · simp at hs
      · have hs2 : s ∈ [curbySourceOf kind cnt c] := hs
        rcases List.mem_singleton.mp hs2 with rfl
        exact ⟨c, rfl, hr⟩

theorem buildRest_sources (env : BuildEnv) (kind path : String) (cnt : Nat)
    (ii ie : Bool) (sources2 : List Source) (errors2 : List String)
    (lfdData : Option (List Nat)) (allBytes2 : List Nat) (seed : Option Nat) :
    ∀ s ∈ (buildRest env kind path cnt ii ie sources2 errors2 lfdData allBytes2 seed).sources,
      s ∈ sources2 ∨ ∃ c, s = curbySourceOf kind cnt c ∧
        read_curby_local env.curbyRead env.randint path (seed.getD 0) kind = .ok c := by
  intro s hs
  have hs2 : s ∈ sources2 ++ (curbyStage env kind path cnt seed).sources := hs
  rcases List.mem_append.mp hs2 with h | h
  · exact .inl h
  · exact .inr (curbyStage_sources env kind path cnt seed s h)

/-! ### Response-level lemmas -/

theorem curbyStage_bytes_lt (env : BuildEnv) (kind path : String) (cnt : Nat)
    (seed : Option Nat) :
    ∀ b ∈ (curbyStage env kind path cnt seed).bytes, b < 256 := by
  intro b hb
  match seed with
  | none => simp [curbyStage] at hb
  | some sd =>
      simp only [curbyStage] at hb
      rcases hr : read_curby_local env.curbyRead env.randint path sd kind with e | c <;>
        rw [hr] at hb
      · simp at hb
      · exact read_curby_local_ok _ _ _ _ _ _ hr b hb

theorem ichingStage_some (ii : Bool) (ld : Option (List Nat)) (d : IChingDerived)
    (h : (ichingStage ii ld).1 = some d) :
    ∃ bs ref, cast_iching_hexagram bs ref = .ok d := by
  cases ii with
  | false => simp [ichingStage] at h
  | true =>
      match ld with
      | none => simp [ichingStage] at h
      | some bs =>
          have h2 : (if bs ≠ [] ∧ 18 ≤ bs.length then
              (match cast_iching_hexagram ((bs.drop 12).take 6) "lfd[bytes 12..17]" with
               | .ok d2 => (some d2, ([] : List String))
               | .error e => (none, ["I Ching derivation: " ++ e]))
            else (none, [])).1 = some d := h
          split_ifs at h2 with hcond
          · rcases hc : cast_iching_hexagram ((bs.drop 12).take 6) "lfd[bytes 12..17]"
              with e | d2 <;> rw [hc] at h2
            · simp at h2
            · have h3 : some d2 = some d := h2
              injection h3 with h3
              subst h3
              exact ⟨_, _, hc⟩

theorem buildRest_ok (env : BuildEnv) (kind path : String) (cnt : Nat) (ii ie : Bool)
    (sources2 : List Source) (errors2 : List String) (lfdData : Option (List Nat))
    (allBytes2 : List Nat) (seed : Option Nat)
    (hs : ∀ s ∈ sources2, SourceWF s)
    (hb : ∀ b ∈ allBytes2, b < 256) :
    ResponseWF (buildRest env kind path cnt ii ie sources2 errors2 lfdData allBytes2 seed) ∧
    ((buildRest env kind path cnt ii ie sources2 errors2 lfdData allBytes2 seed).request.success
        = true ↔
      (buildRest env kind path cnt ii ie sources2 errors2 lfdData allBytes2 seed).request.errors
        = []) ∧
    (∀ e ∈ errors2,
      e ∈ (buildRest env kind path cnt ii ie sources2 errors2 lfdData allBytes2 seed).request.errors) := by
  refine ⟨⟨?_, ?_, ?_⟩, ?_, ?_⟩
  · intro s hs2
    rcases buildRest_sources env kind path cnt ii ie sources2 errors2 lfdData allBytes2 seed
        s hs2 with h | ⟨c, rfl, _⟩
    · exact hs s h
    · exact curbySourceOf_wf kind cnt c
  · intro d hd2
    have hd3 : (ichingStage ii lfdData).1 = some d := hd2
    rcases ichingStage_some ii lfdData d hd3 with ⟨bs, ref, hc⟩
    exact cast_iching_hexagram_wf bs ref d hc
  · intro q hq
    have hq2 : (if (allBytes2 ++ (curbyStage env kind path cnt seed).bytes).isEmpty
        then (none : Option ℚ)
        else some (compute_monobit_fraction
          (allBytes2 ++ (curbyStage env kind path cnt seed).bytes) 1024)) = some q := hq
    by_cases hemp : (allBytes2 ++ (curbyStage env kind path cnt seed).bytes).isEmpty
    · rw [if_pos hemp] at hq2
      simp at hq2
    · rw [if_neg hemp] at hq2
      injection hq2 with hq2
      subst hq2
      apply compute_monobit_fraction_bounds
      intro b hb2
      rcases List.mem_append.mp hb2 with h | h
      · exact hb b h
      · exact curbyStage_bytes_lt env kind path cnt seed b h
  · exact List.isEmpty_iff
  · intro e he
    show e ∈ ((errors2 ++ (curbyStage env kind path cnt seed).errors) ++
      (ichingStage ii lfdData).2) ++ (if ie then eggStage env.egg else ([], none)).1
    exact List.mem_append_left _ (List.mem_append_left _ (List.mem_append_left _ he))

theorem buildFromStages_err (env : BuildEnv) (kind path : String) (cnt : Nat)
    (ii ie : Bool) (anuLen lfdBytes : Nat) (lp : LfdStageOut) (e : String)
    (fb : Bool) (errs : List String) :
    buildFromStages env kind path cnt ii ie anuLen lfdBytes lp ⟨.error e, fb, errs⟩ =
      .ok (buildRest env kind path cnt ii ie lp.sources (lp.errors ++ errs)
        lp.lfdData lp.bytes none) := rfl

theorem buildFromStages_okv (env : BuildEnv) (kind path : String) (cnt : Nat)
    (ii ie : Bool) (anuLen lfdBytes : Nat) (lp : LfdStageOut) (s : AnuSuccess)
    (fb : Bool) (errs : List String) (v0 : Nat) (vr : List Nat)
    (hv : s.values = v0 :: vr) :
    buildFromStages env kind path cnt ii ie anuLen lfdBytes lp ⟨.ok s, fb, errs⟩ =
      .ok (buildRest env kind path cnt ii ie (lp.sources ++ [anuSourceOf anuLen fb s])
        (lp.errors ++ errs) lp.lfdData (lp.bytes ++ s.bytes) (some v0)) := by
  have h0 : buildFromStages env kind path cnt ii ie anuLen lfdBytes lp ⟨.ok s, fb, errs⟩ =
      (match s.values with
       | [] => Except.error ("list index out of range")
       | v0 :: _ =>
          .ok (buildRest env kind path cnt ii ie (lp.sources ++ [anuSourceOf anuLen fb s])
            (lp.errors ++ errs) lp.lfdData (lp.bytes ++ s.bytes) (some v0))) := rfl
  rw [h0, hv]

/-- Case analysis of `buildUnifiedResponse` (requested ANU length at
least 1): the response is always `buildRest` applied to a well-formed
prefix state. -/
theorem build_cases (env : BuildEnv) (anuLen lfdBytes : Nat) (kind path : String)
    (cnt : Nat) (ii ie : Bool) (hpos : 1 ≤ anuLen) :
    ∃ (sources2 : List Source) (errors2 : List String) (lfdData : Option (List Nat))
      (allBytes2 : List Nat) (seed : Option Nat),
      buildUnifiedResponse env anuLen lfdBytes kind path cnt ii ie =
        .ok (buildRest env kind path cnt ii ie sources2 errors2 lfdData allBytes2 seed) ∧
      (∀ s ∈ sources2, SourceWF s ∧ SourceDigestWF s) ∧
      (∀ b ∈ allBytes2, b < 256) ∧
      (∀ e, fetch_lfd_hex lfdBytes env.lfdNet = .error e →
        ("LfD QRNG: " ++ e) ∈ errors2) := by
  rcases hl : fetch_lfd_hex lfdBytes env.lfdNet with el | ls
  · -- LfD failed
    rcases hf : fetch_anu_uint16 anuLen env.anuNet with ef | sf
    · -- ANU fetch failed, no fallback possible
      refine ⟨[], ["LfD QRNG: " ++ el] ++ ["ANU QRNG: " ++ ef], none, [], none, ?_, ?_, ?_, ?_⟩
      · unfold buildUnifiedResponse
        rw [hl, hf]
        rfl
      · simp
      · simp
      · intro e he
        injection he with he
        subst he
        simp
    · -- ANU fetch succeeded
      obtain ⟨v0, vr, hv⟩ : ∃ v0 vr, sf.values = v0 :: vr := by
        have hlen := (fetch_anu_uint16_ok anuLen env.anuNet sf hf).1
        rcases hvals : sf.values with _ | ⟨v0, vr⟩
        · rw [hvals] at hlen; simp at hlen; omega
        · exact ⟨v0, vr, rfl⟩
      refine ⟨[anuSourceOf anuLen false sf], ["LfD QRNG: " ++ el], none, sf.bytes, some v0,
        ?_, ?_, ?_, ?_⟩
      · unfold buildUnifiedResponse
        rw [hl, hf]
        have h0 : buildFromStages env kind path cnt ii ie anuLen lfdBytes
            (lfdStage lfdBytes (.error el))
            (anuStage anuLen (.ok sf) (lfdStage lfdBytes (.error el)).lfdData) =
            buildFromStages env kind path cnt ii ie anuLen lfdBytes
              (lfdStage lfdBytes (.error el)) ⟨.ok sf, false, []⟩ := rfl
        rw [h0, buildFromStages_okv env kind path cnt ii ie anuLen lfdBytes _ sf false [] v0 vr hv]
        rfl
      · intro s hs2
        rcases List.mem_singleton.mp hs2 with rfl
        exact ⟨anuSourceOf_wf _ _ _, anuSourceOf_digest _ _ _⟩
      · exact (fetch_anu_uint16_ok anuLen env.anuNet sf hf).2
      · intro e he
        injection he with he
        subst he
        simp
  · -- LfD succeeded
    have hlfd := fetch_lfd_hex_ok lfdBytes env.lfdNet ls hl
    rcases hf : fetch_anu_uint16 anuLen env.anuNet with ef | sf
    · -- ANU fetch failed: fallback path
      cases hemp : ls.bytes.isEmpty with
      | true =>
          have hstage : anuStage anuLen (.error ef) (lfdStage lfdBytes (.ok ls)).lfdData =
              ⟨.error ef, false, ["ANU QRNG: " ++ ef]⟩ := by
            simp [anuStage, lfdStage, hemp]
          refine ⟨[lfdSource lfdBytes ls], [] ++ ["ANU QRNG: " ++ ef], some ls.bytes,
            ls.bytes, none, ?_, ?_, ?_, ?_⟩
          · unfold buildUnifiedResponse
            rw [hl, hf, hstage]
            rfl
          · intro s hs2
            rcases List.mem_singleton.mp hs2 with rfl
            exact ⟨lfdSource_wf _ _, lfdSource_digest _ _⟩
          · exact hlfd.2.1
          · intro e he
            simp at he
      | false =>
          rcases hfb : generate_fallback_uint16_from_quantum ls.bytes anuLen with e2 | fs
          · -- fallback itself failed
            have hstage : anuStage anuLen (.error ef) (lfdStage lfdBytes (.ok ls)).lfdData =
                ⟨.error e2, true, ["ANU QRNG (fallback): " ++ e2]⟩ := by
              simp [anuStage, lfdStage, hemp, hfb]
            refine ⟨[lfdSource lfdBytes ls], [] ++ ["ANU QRNG (fallback): " ++ e2],
              some ls.bytes, ls.bytes, none, ?_, ?_, ?_, ?_⟩
            · unfold buildUnifiedResponse
              rw [hl, hf, hstage]
              rfl
            · intro s hs2
              rcases List.mem_singleton.mp hs2 with rfl
              exact ⟨lfdSource_wf _ _, lfdSource_digest _ _⟩
            · exact hlfd.2.1
            · intro e he
              simp at he
          · -- fallback succeeded
            have hstage : anuStage anuLen (.error ef) (lfdStage lfdBytes (.ok ls)).lfdData =
                ⟨.ok fs, true, []⟩ := by
              simp [anuStage, lfdStage, hemp, hfb]
            obtain ⟨v0, vr, hv⟩ : ∃ v0 vr, fs.values = v0 :: vr := by
              have hlen := (generate_fallback_ok ls.bytes anuLen fs hfb).1
              rcases hvals : fs.values with _ | ⟨v0, vr⟩
              · rw [hvals] at hlen; simp at hlen; omega
              · exact ⟨v0, vr, rfl⟩
            refine ⟨[lfdSource lfdBytes ls] ++ [anuSourceOf anuLen true fs], [] ++ [],
              some ls.bytes, ls.bytes ++ fs.bytes, some v0, ?_, ?_, ?_, ?_⟩
            · unfold buildUnifiedResponse
              rw [hl, hf, hstage,
                buildFromStages_okv env kind path cnt ii ie anuLen lfdBytes _ fs true [] v0 vr hv]
              rfl
            · intro s hs2
              rcases List.mem_append.mp hs2 with h | h
              · rcases List.mem_singleton.mp h with rfl
                exact ⟨lfdSource_wf _ _, lfdSource_digest _ _⟩
              · rcases List.mem_singleton.mp h with rfl
                exact ⟨anuSourceOf_wf _ _ _, anuSourceOf_digest _ _ _⟩
            · intro b hb
              rcases List.mem_append.mp hb with h | h
              · exact hlfd.2.1 b h
              · have hbytes := (generate_fallback_ok ls.bytes anuLen fs hfb).2
                rw [hbytes] at h
                exact hlfd.2.1 b (List.mem_of_mem_take h)
            · intro e he
              simp at he
    · -- both fetches succeeded
      obtain ⟨v0, vr, hv⟩ : ∃ v0 vr, sf.values = v0 :: vr := by
        have hlen := (fetch_anu_uint16_ok anuLen env.anuNet sf hf).1
        rcases hvals : sf.values with _ | ⟨v0, vr⟩
        · rw [hvals] at hlen; simp at hlen; omega
        · exact ⟨v0, vr, rfl⟩
      refine ⟨[lfdSource lfdBytes ls] ++ [anuSourceOf anuLen false sf], [] ++ [],
        some ls.bytes, ls.bytes ++ sf.bytes, some v0, ?_, ?_, ?_, ?_⟩
      · unfold buildUnifiedResponse
        rw [hl, hf]
        have h0 : buildFromStages env kind path cnt ii ie anuLen lfdBytes
            (lfdStage lfdBytes (.ok ls))
            (anuStage anuLen (.ok sf) (lfdStage lfdBytes (.ok ls)).lfdData) =
            buildFromStages env kind path cnt ii ie anuLen lfdBytes
              (lfdStage lfdBytes (.ok ls)) ⟨.ok sf, false, []⟩ := rfl
        rw [h0, buildFromStages_okv env kind path cnt ii ie anuLen lfdBytes _ sf false [] v0 vr hv]
        rfl
      · intro s hs2
        rcases List.mem_append.mp hs2 with h | h
        · rcases List.mem_singleton.mp h with rfl
          exact ⟨lfdSource_wf _ _, lfdSource_digest _ _⟩
        · rcases List.mem_singleton.mp h with rfl
          exact ⟨anuSourceOf_wf _ _ _, anuSourceOf_digest _ _ _⟩
      · intro b hb
        rcases List.mem_append.mp hb with h | h
        · exact hlfd.2.1 b h
        · exact (fetch_anu_uint16_ok anuLen env.anuNet sf hf).2 b h
      · intro e he
        simp at he

/-! ### Claim C2 -/

/-- C2: for every combination of per-source and per-derivation outcomes
(the oracle record `env`), `build_unified_response` returns a well-formed
response without raising — every per-source failure is converted to a
string recorded in the error list (shown here for the LfD fetch message)
— and `request.success` holds exactly when the error list is empty.
(The requested ANU length must be positive: with `anu_len = 0` the Python
code raises `IndexError` while computing the seed, a malformed
configuration outside the per-source-outcome quantification.) -/
theorem build_unified_response_robust (env : BuildEnv) (anuLen lfdBytes : Nat)
    (kind path : String) (cnt : Nat) (ii ie : Bool) (hpos : 1 ≤ anuLen) :
    ∃ r, buildUnifiedResponse env anuLen lfdBytes kind path cnt ii ie = .ok r ∧
      ResponseWF r ∧
      (r.request.success = true ↔ r.request.errors = []) ∧
      (∀ e, fetch_lfd_hex lfdBytes env.lfdNet = .error e →
        ("LfD QRNG: " ++ e) ∈ r.request.errors) := by
  obtain ⟨s2, e2, ld, ab, sd, heq, hswf, hblt, hlfd⟩ :=
    build_cases env anuLen lfdBytes kind path cnt ii ie hpos
  have hrest := buildRest_ok env kind path cnt ii ie s2 e2 ld ab sd
    (fun s hs => (hswf s hs).1) hblt
  exact ⟨_, heq, hrest.1, hrest.2.1, fun e he => hrest.2.2 _ (hlfd e he)⟩

/-- Witness for C2: both fetches fail, the egg module is unavailable. -/
theorem build_unified_response_robust_witness :
    (1 ≤ 6) ∧
    ∃ r, buildUnifiedResponse
        ⟨"rid", "ts", 3, .error ("lfd down"), .error ("anu down"), .notFound,
          fun _ _ => 0, .moduleUnavailable (some ("no playwright"))⟩
        6 64 "u32" "random_packed_u32be.csv" 1 true true = .ok r ∧
      ResponseWF r ∧
      (r.request.success = true ↔ r.request.errors = []) ∧
      (∀ e, fetch_lfd_hex 64 (Except.error ("lfd down")) = .error e →
        ("LfD QRNG: " ++ e) ∈ r.request.errors) :=
  ⟨by decide,
    build_unified_response_robust
      ⟨"rid", "ts", 3, .error ("lfd down"), .error ("anu down"), .notFound,
        fun _ _ => 0, .moduleUnavailable (some ("no playwright"))⟩
      6 64 "u32" "random_packed_u32be.csv" 1 true true (by decide)⟩

/-! ### Claim C9 -/

theorem lfd_anu_msg_ne (x y : String) : "LfD QRNG: " ++ x ≠ "ANU QRNG: " ++ y := by
  intro hcontra
  have h2 : ("LfD QRNG: " ++ x).data = ("ANU QRNG: " ++ y).data :=
    congrArg String.data hcontra
  rw [String.data_append, String.data_append] at h2
  have h3 := congrArg List.head? h2
  have hL : (("LfD QRNG: ").data ++ x.data).head? = some 'L' := rfl
  have hA : (("ANU QRNG: ").data ++ y.data).head? = some 'A' := rfl
  rw [hL, hA] at h3
  simp at h3

/-- C9: when both the LfD and the ANU fetch fail, the response is still
returned, has `success = false`, carries no I Ching derivation, and its
error list contains two distinct error strings (the converted LfD and ANU
messages; a third CURBy no-seed message is also recorded). -/
theorem both_fetches_fail (env : BuildEnv) (anuLen lfdBytes : Nat) (kind path : String)
    (cnt : Nat) (ii ie : Bool) (e1 e2 : String)
    (hl : fetch_lfd_hex lfdBytes env.lfdNet = .error e1)
    (ha : fetch_anu_uint16 anuLen env.anuNet = .error e2) :
    ∃ r, buildUnifiedResponse env anuLen lfdBytes kind path cnt ii ie = .ok r ∧
      r.request.success = false ∧
      r.derived.iching = none ∧
      ∃ d1 ∈ r.request.errors, ∃ d2 ∈ r.request.errors, d1 ≠ d2 := by
  have heq : buildUnifiedResponse env anuLen lfdBytes kind path cnt ii ie =
      .ok (buildRest env kind path cnt ii ie []
        (["LfD QRNG: " ++ e1] ++ ["ANU QRNG: " ++ e2]) none [] none) := by
    unfold buildUnifiedResponse
    rw [hl, ha]
    rfl
  refine ⟨_, heq, ?_, ?_, ?_⟩
  · show (((((["LfD QRNG: " ++ e1] ++ ["ANU QRNG: " ++ e2]) ++
      (curbyStage env kind path cnt none).errors) ++ (ichingStage ii none).2) ++
      (if ie then eggStage env.egg else ([], none)).1)).isEmpty = false
    simp
  · show (ichingStage ii none).1 = none
    cases ii <;> rfl
  · refine ⟨"LfD QRNG: " ++ e1, ?_, "ANU QRNG: " ++ e2, ?_, lfd_anu_msg_ne e1 e2⟩
    · show _ ∈ ((((["LfD QRNG: " ++ e1] ++ ["ANU QRNG: " ++ e2]) ++
        (curbyStage env kind path cnt none).errors) ++ (ichingStage ii none).2) ++
        (if ie then eggStage env.egg else ([], none)).1)
      exact List.mem_append_left _ (List.mem_append_left _
        (List.mem_append_left _ (by simp)))
    · show _ ∈ ((((["LfD QRNG: " ++ e1] ++ ["ANU QRNG: " ++ e2]) ++
        (curbyStage env kind path cnt none).errors) ++ (ichingStage ii none).2) ++
        (if ie then eggStage env.egg else ([], none)).1)
      exact List.mem_append_left _ (List.mem_append_left _
        (List.mem_append_left _ (by simp)))

/-- Witness for C9 at a concrete environment where both fetches fail. -/
theorem both_fetches_fail_witness :
    (fetch_lfd_hex 64 (Except.error ("lfd boom")) = .error ("lfd boom")) ∧
    (fetch_anu_uint16 6 (Except.error ("anu boom")) = .error ("anu boom")) ∧
    ∃ r, buildUnifiedResponse
        ⟨"rid", "ts", 0, .error ("lfd boom"), .error ("anu boom"), .notFound,
          fun _ _ => 0, .empty⟩ 6 64 "u32" "p" 1 true false = .ok r ∧
      r.request.success = false ∧
      r.derived.iching = none ∧
      ∃ d1 ∈ r.request.errors, ∃ d2 ∈ r.request.errors, d1 ≠ d2 :=
  ⟨rfl, rfl,
    both_fetches_fail
      ⟨"rid", "ts", 0, .error ("lfd boom"), .error ("anu boom"), .notFound,
        fun _ _ => 0, .empty⟩ 6 64 "u32" "p" 1 true false "lfd boom" "anu boom" rfl rfl⟩

/-! ### Inversion of the legacy translation -/

theorem legacy_to_unified_inv (rid ts : String) (p : LegacyPayload) (r : UnifiedResponse)
    (h : legacy_to_unified rid ts p = .ok r) :
    ∃ l1 b1 l2 b2 l3 b3 ich,
      convLegacyS1 p.source1_anu_qrng = .ok (l1, b1) ∧
      convLegacyS2 p.source2_lfd_qrng = .ok (l2, b2) ∧
      convLegacyS3 p.source3_local_csv = .ok (l3, b3) ∧
      convLegacyS4 p.source4_iching = .ok ich ∧
      r = { version := "1.0"
            request := { request_id := rid, timestamp := ts, success := true,
                         latency_ms := 0, errors := [] }
            sources := l1 ++ l2 ++ l3
            derived := { iching := ich, egg := none }
            metadata := { description := "Converted from legacy format"
                          checks := { byte_len_total := (b1 ++ b2 ++ b3).length
                                      monobit_frac := none } } } := by
  unfold legacy_to_unified at h
  rcases h1 : convLegacyS1 p.source1_anu_qrng with e | ⟨l1, b1⟩ <;> rw [h1] at h
  · simp at h
  rcases h2 : convLegacyS2 p.source2_lfd_qrng with e | ⟨l2, b2⟩ <;> rw [h2] at h
  · simp at h
  rcases h3 : convLegacyS3 p.source3_local_csv with e | ⟨l3, b3⟩ <;> rw [h3] at h
  · simp at h
  rcases h4 : convLegacyS4 p.source4_iching with e | ich <;> rw [h4] at h
  · simp at h
  have h5 : Except.ok (ε := String)
      ({ version := "1.0"
         request := { request_id := rid, timestamp := ts, success := true,
                      latency_ms := 0, errors := [] }
         sources := l1 ++ l2 ++ l3
         derived := { iching := ich, egg := none }
         metadata := { description := "Converted from legacy format"
                       checks := { byte_len_total := (b1 ++ b2 ++ b3).length
                                   monobit_frac := none } } } : UnifiedResponse) = .ok r := h
  injection h5 with h5
  exact ⟨l1, b1, l2, b2, l3, b3, ich, rfl, rfl, rfl, rfl, h5.symm⟩

/-! ### Claim C10 -/

/-- C10: whenever `legacy_to_unified` returns without raising, the
response has `success = true`, an empty error list, zero latency and no
monobit fraction — legacy conversion never records a per-source error
string. -/
theorem legacy_to_unified_success_fields (rid ts : String) (p : LegacyPayload)
    (r : UnifiedResponse) (h : legacy_to_unified rid ts p = .ok r) :
    r.request.success = true ∧ r.request.errors = [] ∧ r.request.latency_ms = 0 ∧
      r.metadata.checks.monobit_frac = none := by
  obtain ⟨l1, b1, l2, b2, l3, b3, ich, _, _, _, _, hr⟩ :=
    legacy_to_unified_inv rid ts p r h
  subst hr
  exact ⟨rfl, rfl, rfl, rfl⟩

/-- The unified response built from an empty legacy payload. -/
def legacyEmptyResult : UnifiedResponse :=
  { version := "1.0"
    request := { request_id := "rid", timestamp := "ts", success := true,
                 latency_ms := 0, errors := [] }
    sources := []
    derived := { iching := none, egg := none }
    metadata := { description := "Converted from legacy format"
                  checks := { byte_len_total := 0, monobit_frac := none } } }

/-- Witness for C10 on the empty legacy payload. -/
theorem legacy_to_unified_success_fields_witness :
    legacy_to_unified "rid" "ts" {} = .ok legacyEmptyResult ∧
    legacyEmptyResult.request.success = true ∧
    legacyEmptyResult.request.errors = [] ∧
    legacyEmptyResult.request.latency_ms = 0 ∧
    legacyEmptyResult.metadata.checks.monobit_frac = none :=
  ⟨rfl, legacy_to_unified_success_fields "rid" "ts" {} legacyEmptyResult rfl⟩

/-! ### Digest invariants of the legacy conversion -/

theorem convLegacyS1_digest (o : Option LegacyS1) (l : List Source) (b : List Nat)
    (h : convLegacyS1 o = .ok (l, b)) : ∀ s ∈ l, SourceDigestWF s := by
  match o with
  | none =>
      have h2 : Except.ok (ε := String) (([] : List Source), ([] : List Nat)) =
        .ok (l, b) := h
      injection h2 with h2
      injection h2 with hl hb
      subst hl
      simp
  | some s1 =>
      simp only [convLegacyS1] at h
      by_cases hvals : ∀ v ∈ s1.data, 0 ≤ v ∧ v < 65536
      · rw [if_pos hvals] at h
        by_cases htech : s1.generation_technique ∈ validTechniques
        · rw [if_pos htech] at h
          injection h with h
          injection h with hl hb
          subst hl
          intro s hs
          have hs2 := List.mem_singleton.mp hs
          subst hs2
          refine ⟨(s1.data.map (fun v => toBytesBE2 v.toNat)).flatten, ?_, ?_, ?_, ?_⟩
          · rfl
          · rfl
          · exact compute_sha256_length _
          · exact compute_sha256_chars _
        · rw [if_neg htech] at h
          exact absurd h (by simp)
      · rw [if_neg hvals] at h
        exact absurd h (by simp)

theorem convLegacyS2_digest (o : Option LegacyS2) (l : List Source) (b : List Nat)
    (h : convLegacyS2 o = .ok (l, b)) : ∀ s ∈ l, SourceDigestWF s := by
  match o with
  | none =>
      have h2 : Except.ok (ε := String) (([] : List Source), ([] : List Nat)) =
        .ok (l, b) := h
      injection h2 with h2
      injection h2 with hl hb
      subst hl
      simp
  | some s2 =>
      simp only [convLegacyS2] at h
      split at h
      · exact absurd h (by simp)
      rename_i bs heq
      by_cases htech : s2.generation_technique ∈ validTechniques
      · rw [if_pos htech] at h
        injection h with h
        injection h with hl hb
        subst hl
        intro s hs
        have hs2 := List.mem_singleton.mp hs
        subst hs2
        refine ⟨bs, ?_, ?_, ?_, ?_⟩
        · rfl
        · rfl
        · exact compute_sha256_length _
        · exact compute_sha256_chars _
      · rw [if_neg htech] at h
        exact absurd h (by simp)

theorem convLegacyS3_digest (o : Option LegacyS3) (l : List Source) (b : List Nat)
    (h : convLegacyS3 o = .ok (l, b)) : ∀ s ∈ l, SourceDigestWF s := by
  match o with
  | none =>
      have h2 : Except.ok (ε := String) (([] : List Source), ([] : List Nat)) =
        .ok (l, b) := h
      injection h2 with h2
      injection h2 with hl hb
      subst hl
      simp
  | some s3 =>
      simp only [convLegacyS3] at h
      by_cases hty : s3.type = some "uint32"
      · rw [if_pos hty] at h
        by_cases hrange : 0 ≤ s3.data ∧ s3.data < 4294967296
        · rw [if_pos hrange] at h
          by_cases htech : s3.generation_technique ∈ validTechniques
          · rw [if_pos htech] at h
            injection h with h
            injection h with hl hb
            subst hl
            intro s hs
            have hs2 := List.mem_singleton.mp hs
            subst hs2
            refine ⟨toBytesBE4 s3.data.toNat, ?_, ?_, ?_, ?_⟩
            · rfl
            · rfl
            · exact compute_sha256_length _
            · exact compute_sha256_chars _
          · rw [if_neg htech] at h
            exact absurd h (by simp)
        · rw [if_neg hrange] at h
          exact absurd h (by simp)
      · rw [if_neg hty] at h
        injection h with h
        injection h with hl hb
        subst hl
        simp

/-! ### Claim C8 -/

/-- C8: every `Source` record that reaches a response — whether emitted by
`build_unified_response` (for any outcome environment) or by
`legacy_to_unified` — carries a `sha256_hex` that is the 64-character
lowercase hexadecimal SHA-256 digest recomputed over the same raw bytes
that back its `bytes_b64` field. -/
theorem sha256_digest_invariant (env : BuildEnv) (anuLen lfdBytes : Nat)
    (kind path : String) (cnt : Nat) (ii ie : Bool)
    (rid ts : String) (p : LegacyPayload) (hpos : 1 ≤ anuLen) :
    (∀ r, buildUnifiedResponse env anuLen lfdBytes kind path cnt ii ie = .ok r →
      ∀ s ∈ r.sources, SourceDigestWF s) ∧
    (∀ rl, legacy_to_unified rid ts p = .ok rl →
      ∀ s ∈ rl.sources, SourceDigestWF s) := by
  constructor
  · intro r hb
    obtain ⟨s2, e2, ld, ab, sd, heq, hswf, _, _⟩ :=
      build_cases env anuLen lfdBytes kind path cnt ii ie hpos
    rw [heq] at hb
    injection hb with hb
    subst hb
    intro s hs
    rcases buildRest_sources env kind path cnt ii ie s2 e2 ld ab sd s hs with h | ⟨c, hc, _⟩
    · exact (hswf s h).2
    · rw [hc]
      exact curbySourceOf_digest kind cnt c
  · intro rl hlg
    obtain ⟨l1, b1, l2, b2, l3, b3, ich, h1, h2, h3, h4, hr⟩ :=
      legacy_to_unified_inv rid ts p rl hlg
    subst hr
    intro s hs
    have hs2 : s ∈ (l1 ++ l2) ++ l3 := hs
    rcases List.mem_append.mp hs2 with h12 | hm3
    · rcases List.mem_append.mp h12 with hm | hm
      · exact convLegacyS1_digest _ _ _ h1 s hm
      · exact convLegacyS2_digest _ _ _ h2 s hm
    · exact convLegacyS3_digest _ _ _ h3 s hm3

/-- Witness for C8 at a concrete environment and legacy payload. -/
theorem sha256_digest_invariant_witness :
    (1 ≤ 1) ∧
    ((∀ r, buildUnifiedResponse
        ⟨"rid", "ts", 0, .error ("lfd x"), .error ("anu x"), .notFound,
          fun _ _ => 0, .empty⟩ 1 0 "u32" "p" 1 true false = .ok r →
      ∀ s ∈ r.sources, SourceDigestWF s) ∧
    (∀ rl, legacy_to_unified "rid" "ts" {} = .ok rl →
      ∀ s ∈ rl.sources, SourceDigestWF s)) :=
  ⟨by decide,
    sha256_digest_invariant
      ⟨"rid", "ts", 0, .error ("lfd x"), .error ("anu x"), .notFound,
        fun _ _ => 0, .empty⟩ 1 0 "u32" "p" 1 true false "rid" "ts" {} (by decide)⟩

/-! ### Claim C1 -/

/-- Spec-side reading of "the big-endian parses" of a byte list:
consecutive byte pairs combined as `256*hi + lo`. -/
def specBigEndianParses (bs : List Nat) : List Nat :=
  (List.range (bs.length / 2)).map
    (fun i => 256 * bs.getD (2 * i) 0 + bs.getD (2 * i + 1) 0)

theorem getD_take_of_lt (l : List Nat) (i n : Nat) (h : i < n) :
    (l.take n).getD i 0 = l.getD i 0 := by
  rw [List.getD_eq_getElem?_getD, List.getD_eq_getElem?_getD, List.getElem?_take,
    if_pos h]

/-- Environment exhibiting the `anu_length = 0` failure of C1 as stated:
the LfD fetch succeeds (1 byte ≥ 2·0), the ANU fetch fails. -/
def anuLenZeroEnv : BuildEnv :=
  ⟨"r", "t", 0, .ok ("ab"), .error ("net down"), .notFound, fun _ _ => 0, .empty⟩

/-- Counterexample to C1 as stated ("for every requested ANU length L"):
at `L = 0` the antecedent holds — the ANU fetch fails and the LfD fetch
succeeded with `1 ≥ 2·0` bytes — yet no response containing a fallback
ANU source is produced: the derived value list is empty, so
`seed = anu_result["data_uint16"][0]` raises `IndexError` (here the
uncaught-exception result `list index out of range`). -/
theorem anu_fallback_len0_cex :
    (fetch_anu_uint16 0 anuLenZeroEnv.anuNet = .error ("net down")) ∧
    (fetch_lfd_hex 1 anuLenZeroEnv.lfdNet =
      .ok ⟨"ab", [171], [171], "https://lfdr.de/qrng_api/qrng?length=1&format=HEX"⟩) ∧
    (2 * 0 ≤ ([171] : List Nat).length) ∧
    buildUnifiedResponse anuLenZeroEnv 0 1 "u32" "p" 1 true false =
      .error ("list index out of range") :=
  ⟨rfl, by decide, by decide, by decide⟩

/-- C1 (amended: the requested ANU length is at least 1): if the ANU
fetch fails and the LfD fetch succeeded with at least `2·L` bytes, the
fallback ANU source is built from the first `2·L` LfD bytes: its uint16
values are their big-endian parses, its raw bytes are exactly those
bytes (digest and base64 recomputed over them), `fallback_used = true`,
the technique is the seeded variant, and the seed forwarded to the CURBy
selector is the first derived uint16. -/
theorem anu_fallback_from_lfd (env : BuildEnv) (anuLen lfdBytes : Nat)
    (kind path : String) (cnt : Nat) (ii ie : Bool) (ls : LfdSuccess) (ef : String)
    (hl : fetch_lfd_hex lfdBytes env.lfdNet = .ok ls)
    (hf : fetch_anu_uint16 anuLen env.anuNet = .error ef)
    (hlen : 2 * anuLen ≤ ls.bytes.length)
    (hpos : 1 ≤ anuLen) :
    ∃ fs : AnuSuccess,
      generate_fallback_uint16_from_quantum ls.bytes anuLen = .ok fs ∧
      fs.bytes = ls.bytes.take (2 * anuLen) ∧
      fs.values = specBigEndianParses (ls.bytes.take (2 * anuLen)) ∧
      buildUnifiedResponse env anuLen lfdBytes kind path cnt ii ie =
        .ok (buildRest env kind path cnt ii ie
          ([lfdSource lfdBytes ls] ++ [anuSourceOf anuLen true fs])
          [] (some ls.bytes) (ls.bytes ++ fs.bytes)
          (some (256 * ls.bytes.getD 0 0 + ls.bytes.getD 1 0))) ∧
      (anuSourceOf anuLen true fs).fallback_used = true ∧
      (anuSourceOf anuLen true fs).technique = "quantum_photonics_IDQ_seeded" ∧
      (anuSourceOf anuLen true fs).data.uint16 = some (fs.values.map Int.ofNat) ∧
      (anuSourceOf anuLen true fs).data.bytes_b64 =
        some (base64Encode (ls.bytes.take (2 * anuLen))) ∧
      (anuSourceOf anuLen true fs).sha256_hex =
        compute_sha256 (ls.bytes.take (2 * anuLen)) ∧
      fs.values.head? = some (256 * ls.bytes.getD 0 0 + ls.bytes.getD 1 0) := by
  obtain ⟨k, rfl⟩ : ∃ k, anuLen = k + 1 := ⟨anuLen - 1, by omega⟩
  have hguard : ¬ (ls.bytes.length < (k + 1) * 2) := by omega
  have hfb : generate_fallback_uint16_from_quantum ls.bytes (k + 1) =
      .ok ⟨(List.range (k + 1)).map
            (fun i => 256 * ls.bytes.getD (2 * i) 0 + ls.bytes.getD (2 * i + 1) 0),
          ls.bytes.take ((k + 1) * 2), "locally_determined"⟩ := by
    unfold generate_fallback_uint16_from_quantum
    rw [if_neg hguard]
  have htk : ls.bytes.take ((k + 1) * 2) = ls.bytes.take (2 * (k + 1)) := by
    rw [Nat.mul_comm]
  have hemp : ls.bytes.isEmpty = false := by
    rcases hbs : ls.bytes with _ | ⟨b0, tl⟩
    · rw [hbs] at hlen
      simp only [List.length_nil] at hlen
      omega
    · rfl
  refine ⟨⟨(List.range (k + 1)).map
      (fun i => 256 * ls.bytes.getD (2 * i) 0 + ls.bytes.getD (2 * i + 1) 0),
    ls.bytes.take ((k + 1) * 2), "locally_determined"⟩, hfb, htk, ?_, ?_, rfl, rfl, rfl,
    ?_, ?_, ?_⟩
  · -- the derived values are the big-endian parses of the first 2·L bytes
    show (List.range (k + 1)).map
        (fun i => 256 * ls.bytes.getD (2 * i) 0 + ls.bytes.getD (2 * i + 1) 0) =
      specBigEndianParses (ls.bytes.take (2 * (k + 1)))
    unfold specBigEndianParses
    have htl : (ls.bytes.take (2 * (k + 1))).length = 2 * (k + 1) := by
      rw [List.length_take]
      omega
    rw [htl]
    have h2 : 2 * (k + 1) / 2 = k + 1 := by omega
    rw [h2]
    refine List.map_congr_left ?_
    intro i hi
    have hi2 : i < k + 1 := List.mem_range.mp hi
    rw [getD_take_of_lt _ _ _ (by omega), getD_take_of_lt _ _ _ (by omega)]
  · -- the assembled response
    have hstage : anuStage (k + 1) (Except.error ef)
        (lfdStage lfdBytes (Except.ok ls)).lfdData =
        ⟨.ok ⟨(List.range (k + 1)).map
            (fun i => 256 * ls.bytes.getD (2 * i) 0 + ls.bytes.getD (2 * i + 1) 0),
          ls.bytes.take ((k + 1) * 2), "locally_determined"⟩, true, []⟩ := by
      show anuStage (k + 1) (Except.error ef) (some ls.bytes) = _
      simp only [anuStage, hemp, hfb]
      rfl
    have hv : ((List.range (k + 1)).map
        (fun i => 256 * ls.bytes.getD (2 * i) 0 + ls.bytes.getD (2 * i + 1) 0)) =
        (256 * ls.bytes.getD (2 * 0) 0 + ls.bytes.getD (2 * 0 + 1) 0) ::
          ((List.range k).map Nat.succ).map
            (fun i => 256 * ls.bytes.getD (2 * i) 0 + ls.bytes.getD (2 * i + 1) 0) := by
      rw [List.range_succ_eq_map, List.map_cons]
    unfold buildUnifiedResponse
    rw [hl, hf, hstage,
      buildFromStages_okv env kind path cnt ii ie (k + 1) lfdBytes _ _ true [] _ _ hv]
    rfl
  · -- base64 over the first 2·L bytes
    show some (base64Encode (ls.bytes.take ((k + 1) * 2))) =
      some (base64Encode (ls.bytes.take (2 * (k + 1))))
    rw [htk]
  · -- digest over the first 2·L bytes
    show compute_sha256 (ls.bytes.take ((k + 1) * 2)) =
      compute_sha256 (ls.bytes.take (2 * (k + 1)))
    rw [htk]
  · -- the first derived value seeds the CURBy selector
    show ((List.range (k + 1)).map
        (fun i => 256 * ls.bytes.getD (2 * i) 0 + ls.bytes.getD (2 * i + 1) 0)).head? =
      some (256 * ls.bytes.getD 0 0 + ls.bytes.getD 1 0)
    rw [List.range_succ_eq_map, List.map_cons, List.head?_cons]

/-- Environment for the C1 witness: LfD delivers the two bytes `[1, 2]`
(hex `"0102"`), the ANU fetch fails. -/
def fallbackWitnessEnv : BuildEnv :=
  ⟨"r", "t", 0, .ok ("0102"), .error ("down"), .notFound, fun _ _ => 0, .empty⟩

/-- Witness for the amended C1 at `L = 1` and LfD bytes `[1, 2]`. -/
theorem anu_fallback_from_lfd_witness :
    (fetch_lfd_hex 2 fallbackWitnessEnv.lfdNet = .ok
      ⟨"0102", [1, 2], [1, 2], "https://lfdr.de/qrng_api/qrng?length=2&format=HEX"⟩) ∧
    (fetch_anu_uint16 1 fallbackWitnessEnv.anuNet = .error ("down")) ∧
    (2 * 1 ≤ ([1, 2] : List Nat).length) ∧ (1 ≤ 1) ∧
    (∃ fs : AnuSuccess,
      generate_fallback_uint16_from_quantum [1, 2] 1 = .ok fs ∧
      fs.bytes = ([1, 2] : List Nat).take (2 * 1) ∧
      fs.values = specBigEndianParses (([1, 2] : List Nat).take (2 * 1)) ∧
      buildUnifiedResponse fallbackWitnessEnv 1 2 "u32" "p" 1 true false =
        .ok (buildRest fallbackWitnessEnv "u32" "p" 1 true false
          ([lfdSource 2 ⟨"0102", [1, 2], [1, 2],
              "https://lfdr.de/qrng_api/qrng?length=2&format=HEX"⟩] ++
            [anuSourceOf 1 true fs])
          [] (some [1, 2]) ([1, 2] ++ fs.bytes)
          (some (256 * ([1, 2] : List Nat).getD 0 0 + ([1, 2] : List Nat).getD 1 0))) ∧
      (anuSourceOf 1 true fs).fallback_used = true ∧
      (anuSourceOf 1 true fs).technique = "quantum_photonics_IDQ_seeded" ∧
      (anuSourceOf 1 true fs).data.uint16 = some (fs.values.map Int.ofNat) ∧
      (anuSourceOf 1 true fs).data.bytes_b64 =
        some (base64Encode (([1, 2] : List Nat).take (2 * 1))) ∧
      (anuSourceOf 1 true fs).sha256_hex =
        compute_sha256 (([1, 2] : List Nat).take (2 * 1)) ∧
      fs.values.head? =
        some (256 * ([1, 2] : List Nat).getD 0 0 + ([1, 2] : List Nat).getD 1 0)) :=
  ⟨by decide, rfl, by decide, by decide,
    anu_fallback_from_lfd fallbackWitnessEnv 1 2 "u32" "p" 1 true false
      ⟨"0102", [1, 2], [1, 2], "https://lfdr.de/qrng_api/qrng?length=2&format=HEX"⟩
      "down" (by decide) rfl (by decide) (by decide)⟩
